import Mathlib

/-!
# ARIA frontend: the real-time connection layer

A shallow embedding of `src/frontend/src/services/websocket.js`
(`class WebSocketService`) together with the part of the browser that the
class talks to: the `WebSocket` objects it constructs, the timers it arms with
`setTimeout`, and the listeners that are registered with `on`.

* A `WebSocket` object is a `Transport`; its identity is its position in
  `World.transports`, which holds every object ever constructed.
* A listener is identified by a number (`Callback`); `Env.body` gives what the
  listener does when it is called, as a list of `Op`s on the service.
* `World.emitted` and `World.invoked` are traces: the calls of `emit`, and the
  calls of listeners made by `emit`, in the order in which they happen.
* Numbers are natural numbers: the counter and the delay are non-negative
  integers in the source, and the products below stay exact in a double as
  long as they are less than `2^53`.
-/

namespace Aria

/-! ## JavaScript values carried by notifications -/

mutual
/-- Values that are carried by notifications: the result of `JSON.parse`, the
booleans of the `connected` topic, and `undefined` for a missing property. -/
inductive Val where
  | undefined
  | null
  | bool (b : Bool)
  | num (n : Int)
  | str (s : String)
  | arr (items : Elems)
  | obj (fields : Fields)
  deriving DecidableEq
/-- Elements of an array value. -/
inductive Elems where
  | nil
  | cons (v : Val) (rest : Elems)
  deriving DecidableEq
/-- Own properties of an object value, in insertion order. -/
inductive Fields where
  | nil
  | cons (k : String) (v : Val) (rest : Fields)
  deriving DecidableEq
end

/-- Value of the own property `key`, `undefined` when there is none. -/
def Fields.lookup : Fields → String → Val
  | .nil, _ => Val.undefined
  | .cons k v rest, key => if k = key then v else rest.lookup key

/-- Property read `v.key` for the keys `type` and `payload`: `none` stands for
the `TypeError` raised on `undefined` and `null`; primitives and arrays have
no such property. -/
def Val.getProp : Val → String → Option Val
  | .undefined, _ => none
  | .null, _ => none
  | .obj fields, key => some (fields.lookup key)
  | _, _ => some Val.undefined

/-! ## Transports, timers, listeners -/

/-- The `readyState` of a `WebSocket`. -/
inductive ReadyState where
  | CONNECTING
  | OPEN
  | CLOSING
  | CLOSED
  deriving DecidableEq, Repr

/-- A `WebSocket` object created by `connect`: its state and the frames that
were handed to its `send`. -/
structure Transport where
  readyState : ReadyState
  sent : List String
  deriving DecidableEq, Repr

/-- A timer armed by `setTimeout(() => this.connect(), delay)`. -/
structure Timer where
  delay : Nat
  fired : Bool
  deriving DecidableEq, Repr

abbrev Topic := String

/-- Identity of a listener function. -/
abbrev Callback := Nat

/-- What a listener may do to the service while it runs. -/
inductive Op where
  | on (event : Topic) (cb : Callback)
  | off (event : Topic) (cb : Callback)
  | connect
  | disconnect
  | send (data : Val)
  | throw
  deriving DecidableEq

/-- How a call ends: it returns, or an exception leaves it. -/
inductive Completion where
  | normal
  | thrown
  deriving DecidableEq, Repr

/-- The surroundings of the service that do not change while it runs. -/
structure Env where
  /-- Body of every listener. -/
  body : Callback → List Op
  /-- `JSON.parse`; `none` when it raises `SyntaxError`. -/
  parse : String → Option Val
  /-- `JSON.stringify` on serializable data. -/
  stringify : Val → String
  /-- Whether `new WebSocket(url)` accepts the configured URL. -/
  urlOk : Bool

/-- The fields of `WebSocketService`. `listeners` is the `Map` from topic to
array of callbacks, in insertion order. -/
structure WebSocketService where
  socket : Option Nat
  listeners : List (Topic × List Callback)
  reconnectAttempts : Nat
  maxReconnectAttempts : Nat
  reconnectDelay : Nat
  deriving DecidableEq

/-- The service and the browser objects it has created. -/
structure World where
  svc : WebSocketService
  transports : List Transport
  timers : List Timer
  emitted : List (Topic × Val)
  invoked : List (Callback × Val)
  deriving DecidableEq

/-- The `constructor` of `WebSocketService`. -/
def WebSocketService.create : WebSocketService :=
  { socket := none
    listeners := []
    reconnectAttempts := 0
    maxReconnectAttempts := 5
    reconnectDelay := 1000 }

/-- The world right after `new WebSocketService()`. -/
def World.initial : World :=
  { svc := WebSocketService.create
    transports := []
    timers := []
    emitted := []
    invoked := [] }

/-! ## The listener map -/

/-- `listeners.get(event)`. -/
def getCallbacks (listeners : List (Topic × List Callback)) (event : Topic) :
    Option (List Callback) :=
  listeners.lookup event

/-- The map after the array stored for `event` has become `cbs`; a new key is
added at the end, as `Map.set` does. -/
def setCallbacks : List (Topic × List Callback) → Topic → List Callback →
    List (Topic × List Callback)
  | [], event, cbs => [(event, cbs)]
  | (t, old) :: rest, event, cbs =>
    if event = t then (t, cbs) :: rest else (t, old) :: setCallbacks rest event cbs

/-- Method `on(event, callback)` (lines 87-92). -/
def WebSocketService.on (s : WebSocketService) (event : Topic) (callback : Callback) :
    WebSocketService :=
  let listeners :=
    if (getCallbacks s.listeners event).isSome then s.listeners
    else setCallbacks s.listeners event []
  match getCallbacks listeners event with
  | some cbs => { s with listeners := setCallbacks listeners event (cbs ++ [callback]) }
  | none => { s with listeners := listeners }

/-- Method `off(event, callback)` (lines 94-102): `indexOf` then `splice`. -/
def WebSocketService.off (s : WebSocketService) (event : Topic) (callback : Callback) :
    WebSocketService :=
  match getCallbacks s.listeners event with
  | some callbacks =>
    let index := callbacks.indexOf callback
    if index < callbacks.length then
      { s with listeners := setCallbacks s.listeners event (callbacks.eraseIdx index) }
    else s
  | none => s

/-! ## Methods that touch the transport -/

/-- `this.socket?.readyState`. -/
def World.socketState (w : World) : Option ReadyState :=
  match w.svc.socket with
  | some i => (w.transports.get? i).map Transport.readyState
  | none => none

/-- `WebSocket.close()` without arguments: starts the closing handshake of a
transport that is connecting or open, and does nothing otherwise. -/
def Transport.close (t : Transport) : Transport :=
  match t.readyState with
  | .CONNECTING => { t with readyState := .CLOSING }
  | .OPEN => { t with readyState := .CLOSING }
  | _ => t

/-- Method `connect()` (lines 17-24 and 54-56): the handlers of lines 25-53
are attached to every transport that is created here. -/
def connect (env : Env) (w : World) : World :=
  if w.socketState = some ReadyState.OPEN then w
  else if env.urlOk then
    { w with
      transports := w.transports ++ [{ readyState := .CONNECTING, sent := [] }]
      svc := { w.svc with socket := some w.transports.length } }
  else w

/-- Method `disconnect()` (lines 59-64). -/
def disconnect (w : World) : World :=
  match w.svc.socket with
  | some i =>
    { w with
      transports := w.transports.modify Transport.close i
      svc := { w.svc with socket := none } }
  | none => w

/-- Method `attemptReconnect()` (lines 66-79). -/
def attemptReconnect (w : World) : World :=
  if w.svc.reconnectAttempts ≥ w.svc.maxReconnectAttempts then w
  else
    let attempts := w.svc.reconnectAttempts + 1
    let delay := w.svc.reconnectDelay * 2 ^ (attempts - 1)
    { w with
      svc := { w.svc with reconnectAttempts := attempts }
      timers := w.timers ++ [{ delay := delay, fired := false }] }

/-- Method `send(data)` (lines 81-85). -/
def send (env : Env) (data : Val) (w : World) : World :=
  if w.socketState = some ReadyState.OPEN then
    match w.svc.socket with
    | some i =>
      { w with
        transports :=
          w.transports.modify (fun t => { t with sent := t.sent ++ [env.stringify data] }) i }
    | none => w
  else w

/-! ## Dispatch -/

/-- One operation of a listener body; `throw` is handled by `runBody`. -/
def runOp (env : Env) (op : Op) (w : World) : World :=
  match op with
  | .on event cb => { w with svc := w.svc.on event cb }
  | .off event cb => { w with svc := w.svc.off event cb }
  | .connect => connect env w
  | .disconnect => disconnect w
  | .send data => send env data w
  | .throw => w

/-- Runs a listener body up to its end or its first `throw`. -/
def runBody (env : Env) : List Op → World → World × Completion
  | [], w => (w, .normal)
  | .throw :: _, w => (w, .thrown)
  | op :: rest, w => runBody env rest (runOp env op w)

/-- The call `cb(data)`. -/
def callListener (env : Env) (cb : Callback) (data : Val) (w : World) : World × Completion :=
  runBody env (env.body cb) { w with invoked := w.invoked ++ [(cb, data)] }

/-- The loop of `callbacks.forEach((cb) => cb(data))`, with `n` indices left
to visit from index `k` on. `forEach` fixes the number of indices when it
starts and reads the array anew at every index, so an index that is no longer
in the array is passed over. -/
def forEachLoop (env : Env) (event : Topic) (data : Val) : Nat → Nat → World →
    World × Completion
  | 0, _, w => (w, .normal)
  | n + 1, k, w =>
    match ((getCallbacks w.svc.listeners event).getD []).get? k with
    | none => forEachLoop env event data n (k + 1) w
    | some cb =>
      match callListener env cb data w with
      | (w1, .thrown) => (w1, .thrown)
      | (w1, .normal) => forEachLoop env event data n (k + 1) w1

/-- Method `emit(event, data)` (lines 104-109). -/
def emit (env : Env) (event : Topic) (data : Val) (w : World) : World × Completion :=
  let w0 := { w with emitted := w.emitted ++ [(event, data)] }
  match getCallbacks w0.svc.listeners event with
  | some callbacks => forEachLoop env event data callbacks.length 0 w0
  | none => (w0, .normal)

/-! ## Handlers attached by `connect` -/

/-- Handler `socket.onopen` (lines 25-29). -/
def onopen (env : Env) (w : World) : World × Completion :=
  emit env "connected" (Val.bool true)
    { w with svc := { w.svc with reconnectAttempts := 0 } }

/-- Handler `socket.onmessage` (lines 31-42): everything that is thrown inside
the `try` is caught. -/
def onmessage (env : Env) (text : String) (w : World) : World × Completion :=
  match env.parse text with
  | none => (w, .normal)
  | some data =>
    match emit env "message" data w with
    | (w1, .thrown) => (w1, .normal)
    | (w1, .normal) =>
      match data.getProp "type" with
      | none => (w1, .normal)
      | some type =>
        if type = Val.str "event" then
          match data.getProp "payload" with
          | none => (w1, .normal)
          | some payload => ((emit env "event" payload w1).1, .normal)
        else (w1, .normal)

/-- Handler `socket.onclose` (lines 44-48). -/
def onclose (env : Env) (w : World) : World × Completion :=
  match emit env "connected" (Val.bool false) w with
  | (w1, .thrown) => (w1, .thrown)
  | (w1, .normal) => (attemptReconnect w1, .normal)

/-- Handler `socket.onerror` (lines 50-53). -/
def onerror (env : Env) (error : Val) (w : World) : World × Completion :=
  emit env "error" error w

/-! ## Events of the browser -/

/-- Sets the state of transport `i`. -/
def setReadyState (w : World) (i : Nat) (r : ReadyState) : World :=
  { w with transports := w.transports.modify (fun t => { t with readyState := r }) i }

/-- The transport `i` reports that it is open: only a connecting transport
does. -/
def openEvent (env : Env) (i : Nat) (w : World) : Option (World × Completion) :=
  match w.transports.get? i with
  | some t =>
    if t.readyState = .CONNECTING then some (onopen env (setReadyState w i .OPEN)) else none
  | none => none

/-- A message arrives on transport `i`: only an open transport delivers one. -/
def messageEvent (env : Env) (i : Nat) (text : String) (w : World) :
    Option (World × Completion) :=
  match w.transports.get? i with
  | some t => if t.readyState = .OPEN then some (onmessage env text w) else none
  | none => none

/-- The transport `i` is closed: a failed connection, a drop, or the end of
the handshake started by `close()`. -/
def closeEvent (env : Env) (i : Nat) (w : World) : Option (World × Completion) :=
  match w.transports.get? i with
  | some t =>
    if t.readyState = .CLOSED then none else some (onclose env (setReadyState w i .CLOSED))
  | none => none

/-- The transport `i` reports an error. -/
def errorEvent (env : Env) (i : Nat) (error : Val) (w : World) :
    Option (World × Completion) :=
  match w.transports.get? i with
  | some t => if t.readyState = .CLOSED then none else some (onerror env error w)
  | none => none

/-- The timer `j` fires: it runs `this.connect()` once. -/
def timerEvent (env : Env) (j : Nat) (w : World) : Option World :=
  match w.timers.get? j with
  | some t =>
    if t.fired then none
    else some (connect env { w with timers := w.timers.modify (fun t => { t with fired := true }) j })
  | none => none

/-- Number of transports that are live: created and not yet closed. -/
def World.liveCount (w : World) : Nat :=
  (w.transports.filter (fun t => t.readyState ≠ ReadyState.CLOSED)).length

/-- The retries that are armed and have not fired. -/
def World.pending (w : World) : List Timer :=
  w.timers.filter (fun t => !t.fired)

/-! ## Runs of the system -/

/-- What can happen to the service: a call of one of its methods by the
application, an event of one of its transports, or a timer that fires. -/
inductive Event where
  | callConnect
  | callDisconnect
  | callSend (data : Val)
  | callOn (event : Topic) (cb : Callback)
  | callOff (event : Topic) (cb : Callback)
  | opened (i : Nat)
  | message (i : Nat) (text : String)
  | closed (i : Nat)
  | errored (i : Nat) (error : Val)
  | timer (j : Nat)
  deriving DecidableEq

/-- The world after one event, `none` when the event cannot happen in `w`. An
exception that leaves a handler is reported by the browser and goes no
further. -/
def step (env : Env) (e : Event) (w : World) : Option World :=
  match e with
  | .callConnect => some (connect env w)
  | .callDisconnect => some (disconnect w)
  | .callSend data => some (send env data w)
  | .callOn event cb => some { w with svc := w.svc.on event cb }
  | .callOff event cb => some { w with svc := w.svc.off event cb }
  | .opened i => (openEvent env i w).map Prod.fst
  | .message i text => (messageEvent env i text w).map Prod.fst
  | .closed i => (closeEvent env i w).map Prod.fst
  | .errored i error => (errorEvent env i error w).map Prod.fst
  | .timer j => timerEvent env j w

/-- The world after a sequence of events. -/
def run (env : Env) : List Event → World → Option World
  | [], w => some w
  | e :: es, w => (step env e w).bind (run env es)

/-- Whether the event is a transport that opens. -/
def Event.isOpened : Event → Bool
  | .opened _ => true
  | _ => false

/-- Whether the event is a transport that closes. -/
def Event.isClosed : Event → Bool
  | .closed _ => true
  | _ => false

/-- Surroundings in which no listener does anything, no text parses and the
URL is accepted. -/
def quietEnv : Env :=
  { body := fun _ => []
    parse := fun _ => none
    stringify := fun _ => "null"
    urlOk := true }

/-- Surroundings in which listener 1 removes itself from the topic `event`
when it is called, and no other listener does anything. -/
def selfRemovingEnv : Env :=
  { body := fun cb => if cb = 1 then [Op.off "event" 1] else []
    parse := fun _ => none
    stringify := fun _ => "null"
    urlOk := true }

/-- A fresh service after `on("event", cb)` for the listeners 0, 1, 2, 3. -/
def fourListeners : World :=
  { World.initial with
    svc := (((World.initial.svc.on "event" 0).on "event" 1).on "event" 2).on "event" 3 }

/-- A fresh service that connects and whose transport closes five times in a
row, each retry timer firing before the next close. -/
def fiveCloses : List Event :=
  [.callConnect, .closed 0, .timer 0, .closed 1, .timer 1, .closed 2, .timer 2, .closed 3,
    .timer 3, .closed 4]

/-- Surroundings whose `JSON.parse` knows two texts: an envelope of type
`event` and an envelope of type `status`, both with payload 42. No listener
does anything. -/
def envelopeEnv : Env :=
  { body := fun _ => []
    parse := fun text =>
      if text = "\x7b\"type\":\"event\",\"payload\":42\x7d" then
        some (Val.obj (.cons "type" (.str "event") (.cons "payload" (.num 42) .nil)))
      else if text = "\x7b\"type\":\"status\",\"payload\":42\x7d" then
        some (Val.obj (.cons "type" (.str "status") (.cons "payload" (.num 42) .nil)))
      else none
    stringify := fun _ => "null"
    urlOk := true }

/-- A fresh service after `connect()` and a first close of its transport: one
retry is armed and has not fired. -/
def afterFirstClose : World :=
  (run quietEnv [.callConnect, .closed 0] World.initial).getD World.initial

/-- A fresh service after `connect()` and the open event of its transport. -/
def openWorld : World :=
  (run quietEnv [.callConnect, .opened 0] World.initial).getD World.initial

/-! ## Registration of listeners -/

/-- The calls `on(topic, cb)` for the pairs of `regs`, in order. -/
def registerAll (s : WebSocketService) (regs : List (Topic × Callback)) : WebSocketService :=
  regs.foldl (fun acc p => acc.on p.1 p.2) s

/-- Whether an operation of a listener body returns and leaves the array of
listeners of `event` as it is. -/
def Op.leaves (event : Topic) : Op → Bool
  | .on t _ => decide (t ≠ event)
  | .off t _ => decide (t ≠ event)
  | .throw => false
  | _ => true

/-! ## The client state stores

Shallow embedding of `src/frontend/src/store/*.js`. A store action that awaits
a backend call is split at the `await`: the part that runs when the action is
called, and the part that runs when the call settles. The body of a reply is
a JSON object; the fields that the stores read are `Val`s, `undefined` when
the field is absent. -/

/-- JavaScript truthiness, as tested by `&&`, `||` and `!`. -/
def Val.truthy : Val → Bool
  | .undefined => false
  | .null => false
  | .bool b => b
  | .num n => decide (n ≠ 0)
  | .str s => decide (s ≠ "")
  | .arr _ => true
  | .obj _ => true

/-- The object `{...fields, key: v}`: an own property keeps its place. -/
def Fields.set : Fields → String → Val → Fields
  | .nil, key, v => .cons key v .nil
  | .cons k old rest, key, v =>
    if k = key then .cons k v rest else .cons k old (rest.set key v)

/-- The error with which a backend call rejects; `message` is `error.message`. -/
structure ApiError where
  message : String
  deriving DecidableEq, Repr

/-- How an awaited call, or a store action, ends: it resolves with a value or
rejects with an error. -/
inductive Settled (α : Type) where
  | resolved (value : α)
  | rejected (error : ApiError)
  deriving DecidableEq

/-- The readings of the clock made by one `addMessage`: `Date.now()` and
`new Date().toISOString()`. -/
structure Tick where
  now : Nat
  iso : String
  deriving DecidableEq, Repr

/-! ### Chat store (`chatSlice.js`) -/

/-- A chat message, as built by `addMessage`. -/
structure Message where
  id : Nat
  role : String
  content : Val
  metadata : Val
  timestamp : String
  deriving DecidableEq

/-- The data of `useChatStore`. -/
structure ChatState where
  messages : List Message
  sessionId : Val
  isLoading : Bool
  error : Option String
  deriving DecidableEq

/-- The chat store when it is created (lines 8-11). -/
def ChatState.initial : ChatState :=
  { messages := [], sessionId := Val.null, isLoading := false, error := none }

/-- The fields of the reply of `POST /chat` that the store reads. -/
structure ChatResponse where
  response : Val
  session_id : Val
  tool_calls : Val
  tool_results : Val
  deriving DecidableEq

/-- What a running `sendUserMessage` holds across its `await`: the snapshot
`state = get()` taken when it was called (only `state.sessionId` is read from
it later). -/
structure ChatCall where
  sessionId : Val
  deriving DecidableEq

/-- Action `addMessage(role, content, metadata = null)` (lines 13-23): the
default value `null` replaces a `metadata` that is `undefined`, passed or
left out. -/
def addMessage (tick : Tick) (role : String) (content : Val) (metadata : Val)
    (st : ChatState) : ChatState × Message :=
  let message : Message :=
    { id := tick.now, role := role, content := content,
      metadata := if metadata = Val.undefined then Val.null else metadata,
      timestamp := tick.iso }
  ({ st with messages := st.messages ++ [message] }, message)

/-- Action `sendUserMessage(content)` up to its `await` (lines 26-33). -/
def sendUserMessageBegin (tick : Tick) (content : String) (st : ChatState) :
    ChatState × ChatCall :=
  let call : ChatCall := { sessionId := st.sessionId }
  let st1 := { st with isLoading := true, error := none }
  ((addMessage tick "user" (Val.str content) Val.null st1).1, call)

/-- Action `sendUserMessage(content)` from the moment the backend call settles
(lines 33-52). -/
def sendUserMessageEnd (tick : Tick) (call : ChatCall) (backend : Settled ChatResponse)
    (st : ChatState) : ChatState × Settled ChatResponse :=
  match backend with
  | .resolved response =>
    let st1 :=
      if response.session_id.truthy && !call.sessionId.truthy then
        { st with sessionId := response.session_id }
      else st
    let st2 := (addMessage tick "assistant" response.response
      (Val.obj (.cons "toolCalls" response.tool_calls
        (.cons "toolResults" response.tool_results .nil))) st1).1
    ({ st2 with isLoading := false }, .resolved response)
  | .rejected error =>
    let st1 := { st with isLoading := false, error := some error.message }
    ((addMessage tick "system" (Val.str ("Error: " ++ error.message)) Val.null st1).1,
      .rejected error)

/-- Action `sendUserMessage(content)` when nothing else touches the store
between the call and the moment the backend call settles. -/
def sendUserMessage (tickCall tickSettle : Tick) (content : String)
    (backend : Settled ChatResponse) (st : ChatState) : ChatState × Settled ChatResponse :=
  let begun := sendUserMessageBegin tickCall content st
  sendUserMessageEnd tickSettle begun.2 backend begun.1

/-- Action `clearMessages()` (line 55). -/
def clearMessages (st : ChatState) : ChatState :=
  { st with messages := [], sessionId := Val.null, error := none }

/-- Action `setSessionId(id)` (line 57). -/
def setSessionId (id : Val) (st : ChatState) : ChatState :=
  { st with sessionId := id }

/-- The operations on the chat store, a running `sendUserMessage` counting as
two: its call and its completion. -/
inductive ChatOp where
  | addMessage (tick : Tick) (role : String) (content : Val) (metadata : Val)
  | setSessionId (id : Val)
  | sendBegin (tick : Tick) (content : String)
  | sendEnd (tick : Tick) (call : ChatCall) (backend : Settled ChatResponse)
  | clearMessages
  deriving DecidableEq

/-- The chat store after one operation. -/
def ChatOp.apply : ChatOp → ChatState → ChatState
  | .addMessage tick role content metadata, st =>
    (Aria.addMessage tick role content metadata st).1
  | .setSessionId id, st => Aria.setSessionId id st
  | .sendBegin tick content, st => (sendUserMessageBegin tick content st).1
  | .sendEnd tick call backend, st => (sendUserMessageEnd tick call backend st).1
  | .clearMessages, st => Aria.clearMessages st

/-! ### Device store (`deviceSlice.js`) -/

/-- The data of `useDeviceStore`; a device record is a JSON object. -/
structure DeviceState where
  devices : List Fields
  isLoading : Bool
  error : Option String
  deriving DecidableEq

/-- The reply of `GET /devices/list`: `devices` is `none` when the field is
absent (or `null`), and the array of records otherwise. -/
structure DevicesResponse where
  devices : Option (List Fields)
  deriving DecidableEq

/-- The reply of `POST /devices/action`. -/
structure ControlResponse where
  status : Val
  deriving DecidableEq

/-- Action `fetchDevices()` up to its `await` (line 13). -/
def fetchDevicesBegin (st : DeviceState) : DeviceState :=
  { st with isLoading := true, error := none }

/-- Action `fetchDevices()` from the moment the backend call settles
(lines 14-21). -/
def fetchDevicesEnd (backend : Settled DevicesResponse) (st : DeviceState) :
    DeviceState × Settled DevicesResponse :=
  match backend with
  | .resolved response =>
    ({ st with devices := response.devices.getD [], isLoading := false }, .resolved response)
  | .rejected error =>
    ({ st with isLoading := false, error := some error.message }, .rejected error)

/-- Action `fetchDevices()` when nothing else touches the store in between. -/
def fetchDevices (backend : Settled DevicesResponse) (st : DeviceState) :
    DeviceState × Settled DevicesResponse :=
  fetchDevicesEnd backend (fetchDevicesBegin st)

/-- Action `controlDevice(entityId, action, value)` from the moment the backend
call settles (lines 24-44); nothing happens to the store before. -/
def controlDevice (entityId : String) (action : String) (backend : Settled ControlResponse)
    (st : DeviceState) : DeviceState × Settled ControlResponse :=
  match backend with
  | .resolved response =>
    if response.status = Val.str "success" ∨ response.status = Val.str "simulated" then
      ({ st with
          devices := st.devices.map (fun device =>
            if device.lookup "entity_id" = Val.str entityId then
              device.set "state" (Val.str (if action = "turn_on" then "on" else "off"))
            else device) },
        .resolved response)
    else (st, .resolved response)
  | .rejected error => ({ st with error := some error.message }, .rejected error)

/-! ### System store (`systemSlice.js`) -/

/-- The data of `useSystemStore`; a snapshot is the JSON object of the reply. -/
structure SystemState where
  status : Option Fields
  health : Option Fields
  isOnline : Bool
  isLoading : Bool
  error : Option String
  deriving DecidableEq

/-- The system store when it is created (lines 8-12). -/
def SystemState.initial : SystemState :=
  { status := none, health := none, isOnline := false, isLoading := false, error := none }

/-- Action `fetchStatus()` up to its `await` (line 15). -/
def fetchStatusBegin (st : SystemState) : SystemState :=
  { st with isLoading := true, error := none }

/-- Action `fetchStatus()` from the moment the backend call settles
(lines 16-31). -/
def fetchStatusEnd (backend : Settled Fields) (st : SystemState) :
    SystemState × Settled Fields :=
  match backend with
  | .resolved status =>
    ({ st with
        status := some status
        isOnline := decide (status.lookup "status" = Val.str "online")
        isLoading := false },
      .resolved status)
  | .rejected error =>
    ({ st with isOnline := false, isLoading := false, error := some error.message },
      .rejected error)

/-- Action `fetchStatus()` when nothing else touches the store in between. -/
def fetchStatus (backend : Settled Fields) (st : SystemState) : SystemState × Settled Fields :=
  fetchStatusEnd backend (fetchStatusBegin st)

/-- Action `fetchHealth()` from the moment the backend call settles
(lines 34-43); nothing happens to the store before. -/
def fetchHealth (backend : Settled Fields) (st : SystemState) : SystemState × Settled Fields :=
  match backend with
  | .resolved health =>
    ({ st with
        health := some health
        isOnline := decide (health.lookup "status" = Val.str "ok") },
      .resolved health)
  | .rejected error => ({ st with isOnline := false }, .rejected error)

/-- Registrations on two topics, listener 7 being registered twice for
`event`. -/
def mixedRegistrations : List (Topic × Callback) :=
  [("event", 7), ("message", 9), ("event", 8), ("event", 7)]

/-! ### Concrete store states -/

/-- Clock readings of four successive moments. -/
def tickOne : Tick := { now := 1700000000000, iso := "2023-11-14T22:13:20.000Z" }

/-- Second clock reading. -/
def tickTwo : Tick := { now := 1700000000850, iso := "2023-11-14T22:13:20.850Z" }

/-- Third clock reading. -/
def tickThree : Tick := { now := 1700000001200, iso := "2023-11-14T22:13:21.200Z" }

/-- Fourth clock reading. -/
def tickFour : Tick := { now := 1700000001900, iso := "2023-11-14T22:13:21.900Z" }

/-- The reply `{response: "hi", session_id: "s1", tool_calls: []}`. -/
def hiResponse : ChatResponse :=
  { response := .str "hi", session_id := .str "s1", tool_calls := .arr .nil,
    tool_results := .undefined }

/-- The reply `{response: "yo", session_id: "s2", tool_calls: []}`. -/
def yoResponse : ChatResponse :=
  { response := .str "yo", session_id := .str "s2", tool_calls := .arr .nil,
    tool_results := .undefined }

/-- A fresh chat after one successful `sendUserMessage("hello")`: its session
id is `"s1"`. -/
def assignedChat : ChatState :=
  (sendUserMessage tickOne tickTwo "hello" (.resolved hiResponse) ChatState.initial).1

/-- A fresh chat after two calls of `sendUserMessage` that were both made
before any reply, and the reply `hiResponse` to the first one. -/
def overlapAfterFirst : ChatState :=
  (sendUserMessageEnd tickThree (sendUserMessageBegin tickOne "a" ChatState.initial).2
    (.resolved hiResponse)
    (sendUserMessageBegin tickTwo "b" (sendUserMessageBegin tickOne "a" ChatState.initial).1).1).1

/-- The same chat after the reply `yoResponse` to the second call. -/
def overlapAfterSecond : ChatState :=
  (sendUserMessageEnd tickFour
    (sendUserMessageBegin tickTwo "b" (sendUserMessageBegin tickOne "a" ChatState.initial).1).2
    (.resolved yoResponse) overlapAfterFirst).1

/-- A registry with two lights that are off. -/
def twoLights : DeviceState :=
  { devices :=
      [.cons "entity_id" (.str "light.a") (.cons "name" (.str "Lamp") (.cons "state" (.str "off")
        .nil)),
       .cons "entity_id" (.str "light.b") (.cons "name" (.str "Desk") (.cons "state" (.str "off")
        .nil))]
    isLoading := false
    error := none }

/-! ### Settings store (`settingsSlice.js`) -/

/-- The data of `useSettingsStore`. The setters store whatever they are given,
so these fields are `Val`s; `sidebarCollapsed` is only ever written by
`toggleSidebar`, which stores a boolean. -/
structure SettingsState where
  theme : Val
  sidebarCollapsed : Bool
  notifications : Val
  soundEnabled : Val
  autoScroll : Val
  deriving DecidableEq

/-- The settings store when it is created (lines 9-13). -/
def SettingsState.initial : SettingsState :=
  { theme := Val.str "dark", sidebarCollapsed := false, notifications := Val.bool true,
    soundEnabled := Val.bool true, autoScroll := Val.bool true }

/-- Action `setTheme(theme)` (line 15). -/
def setTheme (theme : Val) (st : SettingsState) : SettingsState :=
  { st with theme := theme }

/-- Action `toggleSidebar()` (lines 16-17). -/
def toggleSidebar (st : SettingsState) : SettingsState :=
  { st with sidebarCollapsed := !st.sidebarCollapsed }

/-- Action `setNotifications(enabled)` (line 18). -/
def setNotifications (enabled : Val) (st : SettingsState) : SettingsState :=
  { st with notifications := enabled }

/-- Action `setSoundEnabled(enabled)` (line 19). -/
def setSoundEnabled (enabled : Val) (st : SettingsState) : SettingsState :=
  { st with soundEnabled := enabled }

/-- Action `setAutoScroll(enabled)` (line 20). -/
def setAutoScroll (enabled : Val) (st : SettingsState) : SettingsState :=
  { st with autoScroll := enabled }

/-- The message built by `addMessage` at the clock reading `tick`. -/
def messageAt (tick : Tick) (role : String) (content : Val) (metadata : Val) : Message :=
  (addMessage tick role content metadata ChatState.initial).2

/-- The metadata that `sendUserMessage` attaches to the assistant message. -/
def replyMetadata (r : ChatResponse) : Val :=
  Val.obj (.cons "toolCalls" r.tool_calls (.cons "toolResults" r.tool_results .nil))

/-- Surroundings in which listener 1 throws as soon as it is called and no
other listener does anything; `JSON.parse` is that of `envelopeEnv`. -/
def throwingEnv : Env :=
  { body := fun cb => if cb = 1 then [Op.throw] else []
    parse := envelopeEnv.parse
    stringify := fun _ => "null"
    urlOk := true }

/-- A fresh service with the listeners 0, 1, 2 for `message` and the listener
3 for `event`. -/
def messageListeners : World :=
  { World.initial with
    svc := registerAll World.initial.svc
      [("message", 0), ("message", 1), ("message", 2), ("event", 3)] }

/-- Whether the event is a close whose handler returns, that is, whose
dispatch of `connected = false` is not left by an exception. -/
def closeReturns (env : Env) (e : Event) (w : World) : Bool :=
  match e with
  | .closed i =>
    match closeEvent env i w with
    | some r => decide (r.2 = Completion.normal)
    | none => false
  | _ => false

/-- Number of closes of the run whose handler returns. -/
def returnedCloses (env : Env) : List Event → World → Nat
  | [], _ => 0
  | e :: es, w =>
    match step env e w with
    | some w1 => (if closeReturns env e w then 1 else 0) + returnedCloses env es w1
    | none => 0

/-- A fresh service after `on("connected", 1)` and `connect()`; in
`throwingEnv` listener 1 throws. -/
def connectedThrower : World :=
  connect throwingEnv { World.initial with svc := World.initial.svc.on "connected" 1 }

/-- The part of the world that no listener can reach: the counter and the
settings of the reconnection procedure, the timers and the trace of `emit`. -/
structure Framed (w w1 : World) : Prop where
  attempts : w1.svc.reconnectAttempts = w.svc.reconnectAttempts
  maxAttempts : w1.svc.maxReconnectAttempts = w.svc.maxReconnectAttempts
  delay : w1.svc.reconnectDelay = w.svc.reconnectDelay
  timers : w1.timers = w.timers
  emitted : w1.emitted = w.emitted

/-- The reconnection state is the same in both worlds: the counter, its
maximum, the base delay, and the delays of the timers armed so far. -/
structure Steady (w w1 : World) : Prop where
  attempts : w1.svc.reconnectAttempts = w.svc.reconnectAttempts
  maxAttempts : w1.svc.maxReconnectAttempts = w.svc.maxReconnectAttempts
  delay : w1.svc.reconnectDelay = w.svc.reconnectDelay
  delays : w1.timers.map Timer.delay = w.timers.map Timer.delay

/-- No listener body contains a `throw`. -/
def NoThrow (env : Env) : Prop :=
  ∀ cb, Op.throw ∉ env.body cb

theorem Framed.refl (w : World) : Framed w w :=
  ⟨rfl, rfl, rfl, rfl, rfl⟩

theorem Framed.trans {a b c : World} (h1 : Framed a b) (h2 : Framed b c) : Framed a c :=
  ⟨h2.attempts.trans h1.attempts, h2.maxAttempts.trans h1.maxAttempts,
    h2.delay.trans h1.delay, h2.timers.trans h1.timers, h2.emitted.trans h1.emitted⟩

theorem on_framed (w : World) (event : Topic) (cb : Callback) :
    Framed w { w with svc := w.svc.on event cb } := by
  unfold WebSocketService.on
  split <;> dsimp only <;> split <;> exact ⟨rfl, rfl, rfl, rfl, rfl⟩

theorem off_framed (w : World) (event : Topic) (cb : Callback) :
    Framed w { w with svc := w.svc.off event cb } := by
  unfold WebSocketService.off
  split
  · dsimp only
    split <;> exact ⟨rfl, rfl, rfl, rfl, rfl⟩
  · exact ⟨rfl, rfl, rfl, rfl, rfl⟩

theorem connect_framed (env : Env) (w : World) : Framed w (connect env w) := by
  unfold connect
  split
  · exact Framed.refl w
  · split <;> exact ⟨rfl, rfl, rfl, rfl, rfl⟩

theorem disconnect_framed (w : World) : Framed w (disconnect w) := by
  unfold disconnect
  split <;> exact ⟨rfl, rfl, rfl, rfl, rfl⟩

theorem send_framed (env : Env) (data : Val) (w : World) : Framed w (send env data w) := by
  unfold send
  split
  · split <;> exact ⟨rfl, rfl, rfl, rfl, rfl⟩
  · exact Framed.refl w

theorem runOp_framed (env : Env) (op : Op) (w : World) : Framed w (runOp env op w) := by
  match op with
  | .on event cb => exact on_framed w event cb
  | .off event cb => exact off_framed w event cb
  | .connect => exact connect_framed env w
  | .disconnect => exact disconnect_framed w
  | .send data => exact send_framed env data w
  | .throw => exact Framed.refl w

theorem runBody_framed (env : Env) (ops : List Op) (w : World) :
    Framed w (runBody env ops w).1 := by
  induction ops generalizing w with
  | nil => exact Framed.refl w
  | cons op rest ih =>
    cases op <;> first
      | exact Framed.refl w
      | exact (runOp_framed env _ w).trans (ih _)

theorem runBody_normal (env : Env) (ops : List Op) (h : Op.throw ∉ ops) (w : World) :
    (runBody env ops w).2 = Completion.normal := by
  induction ops generalizing w with
  | nil => rfl
  | cons op rest ih =>
    have hr : Op.throw ∉ rest := fun hm => h (List.mem_cons_of_mem _ hm)
    cases op <;> first
      | exact absurd (List.mem_cons_self _ _) h
      | exact ih hr _

theorem callListener_framed (env : Env) (cb : Callback) (data : Val) (w : World) :
    Framed w (callListener env cb data w).1 :=
  Framed.trans (b := { w with invoked := w.invoked ++ [(cb, data)] }) ⟨rfl, rfl, rfl, rfl, rfl⟩
    (runBody_framed env (env.body cb) _)

theorem callListener_normal (env : Env) (h : NoThrow env) (cb : Callback) (data : Val)
    (w : World) : (callListener env cb data w).2 = Completion.normal :=
  runBody_normal env (env.body cb) (h cb) _

theorem forEachLoop_framed (env : Env) (event : Topic) (data : Val) (n k : Nat) (w : World) :
    Framed w (forEachLoop env event data n k w).1 := by
  induction n generalizing k w with
  | zero => exact Framed.refl w
  | succ n ih =>
    unfold forEachLoop
    split
    · exact ih _ _
    · next cb _ =>
      have hc := callListener_framed env cb data w
      split
      · next w1 heq => rw [heq] at hc; exact hc
      · next w1 heq => rw [heq] at hc; exact hc.trans (ih _ _)

theorem forEachLoop_normal (env : Env) (h : NoThrow env) (event : Topic) (data : Val)
    (n k : Nat) (w : World) : (forEachLoop env event data n k w).2 = Completion.normal := by
  induction n generalizing k w with
  | zero => rfl
  | succ n ih =>
    unfold forEachLoop
    split
    · exact ih _ _
    · next cb _ =>
      have hc := callListener_normal env h cb data w
      split
      · next w1 heq => rw [heq] at hc; cases hc
      · exact ih _ _

/-- What `emit` does to the part of the world that listeners cannot reach: it
adds one entry to the trace and nothing else. -/
theorem emit_framed (env : Env) (event : Topic) (data : Val) (w : World) :
    Framed { w with emitted := w.emitted ++ [(event, data)] } (emit env event data w).1 := by
  unfold emit
  simp only
  split
  · exact forEachLoop_framed env event data _ _ _
  · exact Framed.refl _

theorem emit_normal (env : Env) (h : NoThrow env) (event : Topic) (data : Val) (w : World) :
    (emit env event data w).2 = Completion.normal := by
  unfold emit
  simp only
  split
  · exact forEachLoop_normal env h event data _ _ _
  · rfl

/-! ## The close handler and the reconnection procedure -/

theorem attemptReconnect_below (w : World)
    (h : w.svc.reconnectAttempts < w.svc.maxReconnectAttempts) :
    attemptReconnect w =
      { w with
        svc := { w.svc with reconnectAttempts := w.svc.reconnectAttempts + 1 }
        timers := w.timers ++
          [{ delay := w.svc.reconnectDelay * 2 ^ w.svc.reconnectAttempts, fired := false }] } := by
  unfold attemptReconnect
  rw [if_neg (Nat.not_le.mpr h)]
  simp

theorem attemptReconnect_reached (w : World)
    (h : w.svc.maxReconnectAttempts ≤ w.svc.reconnectAttempts) : attemptReconnect w = w := by
  unfold attemptReconnect
  rw [if_pos h]

/-- The close handler: it emits `connected = false`; when the dispatch returns
and the counter is below the maximum it counts one attempt and arms one timer,
otherwise the counter and the timers stay as they are. -/
theorem onclose_effect (env : Env) (w : World) :
    (onclose env w).1.svc.maxReconnectAttempts = w.svc.maxReconnectAttempts ∧
    (onclose env w).1.svc.reconnectDelay = w.svc.reconnectDelay ∧
    (onclose env w).1.emitted = w.emitted ++ [("connected", Val.bool false)] ∧
    (((onclose env w).2 = Completion.normal ∧
        w.svc.reconnectAttempts < w.svc.maxReconnectAttempts) →
      (onclose env w).1.svc.reconnectAttempts = w.svc.reconnectAttempts + 1 ∧
      (onclose env w).1.timers = w.timers ++
        [{ delay := w.svc.reconnectDelay * 2 ^ w.svc.reconnectAttempts, fired := false }]) ∧
    (¬ ((onclose env w).2 = Completion.normal ∧
        w.svc.reconnectAttempts < w.svc.maxReconnectAttempts) →
      (onclose env w).1.svc.reconnectAttempts = w.svc.reconnectAttempts ∧
      (onclose env w).1.timers = w.timers) := by
  have hf := emit_framed env "connected" (Val.bool false) w
  unfold onclose
  split
  · next w1 heq =>
    rw [heq] at hf
    refine ⟨hf.maxAttempts, hf.delay, hf.emitted, ?_, ?_⟩
    · rintro ⟨h, _⟩
      cases h
    · intro _
      exact ⟨hf.attempts, hf.timers⟩
  · next w1 heq =>
    rw [heq] at hf
    have ha : w1.svc.reconnectAttempts = w.svc.reconnectAttempts := hf.attempts
    have hm : w1.svc.maxReconnectAttempts = w.svc.maxReconnectAttempts := hf.maxAttempts
    have hd : w1.svc.reconnectDelay = w.svc.reconnectDelay := hf.delay
    have ht : w1.timers = w.timers := hf.timers
    have he : w1.emitted = w.emitted ++ [("connected", Val.bool false)] := hf.emitted
    by_cases hlt : w.svc.reconnectAttempts < w.svc.maxReconnectAttempts
    · have hlt1 : w1.svc.reconnectAttempts < w1.svc.maxReconnectAttempts := by
        rw [ha, hm]; exact hlt
      rw [attemptReconnect_below w1 hlt1]
      refine ⟨hm, hd, he, ?_, ?_⟩
      · intro _
        simp [ha, hd, ht]
      · intro hn
        exact absurd ⟨rfl, hlt⟩ hn
    · have hge : w1.svc.maxReconnectAttempts ≤ w1.svc.reconnectAttempts := by
        rw [ha, hm]; exact Nat.not_lt.mp hlt
      rw [attemptReconnect_reached w1 hge]
      refine ⟨hm, hd, he, ?_, ?_⟩
      · rintro ⟨_, h⟩
        exact absurd h hlt
      · intro _
        exact ⟨ha, ht⟩

theorem closeEvent_eq (env : Env) (i : Nat) (w : World) (r : World × Completion)
    (h : closeEvent env i w = some r) : r = onclose env (setReadyState w i ReadyState.CLOSED) := by
  unfold closeEvent at h
  split at h
  · split at h
    · cases h
    · exact (Option.some.inj h).symm
  · cases h

/-- C1, refuted as stated: on a fresh service `connect()`, then `disconnect()`,
then the close event of the transport counts a reconnection attempt (the
counter goes from 0 to 1) and arms a retry of 1000 ms. -/
theorem disconnect_then_close_counterexample :
    (connect quietEnv World.initial).svc.socket = some 0 ∧
    (connect quietEnv World.initial).svc.reconnectAttempts = 0 ∧
    (connect quietEnv World.initial).timers = [] ∧
    (closeEvent quietEnv 0 (disconnect (connect quietEnv World.initial))).map
        (fun r => (r.1.svc.reconnectAttempts, r.1.timers)) =
      some (1, [{ delay := 1000, fired := false }]) := by
  decide

/-- C1, as amended: for every connection state with a transport handle,
`disconnect()` clears the handle, and the close event of that transport then
runs the close handler as after any other close: `connected = false` is
emitted, and when the dispatch returns and the counter is below
`maxReconnectAttempts` the counter grows by one and one retry is armed with
delay `reconnectDelay * 2 ^ counter`; the counter and the timers are unchanged
only when the counter has reached the maximum or a listener threw. -/
theorem disconnect_then_close_reconnects (env : Env) (w : World) (i : Nat)
    (hs : w.svc.socket = some i) (r : World × Completion)
    (hc : closeEvent env i (disconnect w) = some r) :
    (disconnect w).svc.socket = none ∧
    r.1.emitted = w.emitted ++ [("connected", Val.bool false)] ∧
    ((r.2 = Completion.normal ∧ w.svc.reconnectAttempts < w.svc.maxReconnectAttempts) →
      r.1.svc.reconnectAttempts = w.svc.reconnectAttempts + 1 ∧
      r.1.timers = w.timers ++
        [{ delay := w.svc.reconnectDelay * 2 ^ w.svc.reconnectAttempts, fired := false }]) ∧
    (¬ (r.2 = Completion.normal ∧ w.svc.reconnectAttempts < w.svc.maxReconnectAttempts) →
      r.1.svc.reconnectAttempts = w.svc.reconnectAttempts ∧ r.1.timers = w.timers) := by
  have hd := disconnect_framed w
  have hr := closeEvent_eq env i (disconnect w) r hc
  have ho := onclose_effect env (setReadyState (disconnect w) i ReadyState.CLOSED)
  rw [← hr] at ho
  have ha : (setReadyState (disconnect w) i ReadyState.CLOSED).svc.reconnectAttempts =
      w.svc.reconnectAttempts := hd.attempts
  have hm : (setReadyState (disconnect w) i ReadyState.CLOSED).svc.maxReconnectAttempts =
      w.svc.maxReconnectAttempts := hd.maxAttempts
  have hdl : (setReadyState (disconnect w) i ReadyState.CLOSED).svc.reconnectDelay =
      w.svc.reconnectDelay := hd.delay
  have ht : (setReadyState (disconnect w) i ReadyState.CLOSED).timers = w.timers := hd.timers
  have he : (setReadyState (disconnect w) i ReadyState.CLOSED).emitted = w.emitted := hd.emitted
  rw [ha, hm, hdl, ht, he] at ho
  refine ⟨?_, ho.2.2.1, ho.2.2.2.1, ho.2.2.2.2⟩
  unfold disconnect
  rw [hs]

/-- C1, as amended, at a concrete state: a fresh service after `connect()`. -/
theorem disconnect_then_close_reconnects_witness :
    (connect quietEnv World.initial).svc.socket = some 0 ∧
    (onclose quietEnv (setReadyState (disconnect (connect quietEnv World.initial)) 0
        ReadyState.CLOSED)).1.svc.reconnectAttempts = 0 + 1 :=
  ⟨by decide,
    ((disconnect_then_close_reconnects quietEnv (connect quietEnv World.initial) 0 (by decide)
      (onclose quietEnv (setReadyState (disconnect (connect quietEnv World.initial)) 0
        ReadyState.CLOSED)) (by decide)).2.2.1 ⟨by decide, by decide⟩).1⟩

theorem getCallbacks_setCallbacks (m : List (Topic × List Callback)) (event : Topic)
    (cbs : List Callback) : getCallbacks (setCallbacks m event cbs) event = some cbs := by
  induction m with
  | nil => simp [setCallbacks, getCallbacks, List.lookup]
  | cons p rest ih =>
    obtain ⟨t, old⟩ := p
    unfold setCallbacks
    by_cases h : event = t
    · subst h
      simp [getCallbacks, List.lookup]
    · have hb : (event == t) = false := by simpa using h
      simp only [if_neg h, getCallbacks, List.lookup, hb]
      exact ih

theorem forEachLoop_quiet (env : Env) (event : Topic) (data : Val) (L : List Callback)
    (n k : Nat) (w : World) (hl : getCallbacks w.svc.listeners event = some L)
    (hq : ∀ x ∈ (L.drop k).take n, env.body x = []) :
    forEachLoop env event data n k w =
      ({ w with invoked := w.invoked ++ ((L.drop k).take n).map (fun x => (x, data)) },
        Completion.normal) := by
  induction n generalizing k w with
  | zero => simp [forEachLoop]
  | succ n ih =>
    unfold forEachLoop
    rw [hl]
    simp only [Option.getD_some]
    cases hk : L.get? k with
    | none =>
      have hlen : L.length ≤ k := List.get?_eq_none.mp hk
      have hd : L.drop k = [] := List.drop_eq_nil_of_le hlen
      have hd1 : L.drop (k + 1) = [] := List.drop_eq_nil_of_le (Nat.le_succ_of_le hlen)
      simp only
      rw [ih (k + 1) w hl (by simp [hd1]), hd, hd1]
      simp
    | some cb =>
      have hlt : k < L.length := by
        by_contra hge
        rw [List.get?_eq_none.mpr (Nat.not_lt.mp hge)] at hk
        cases hk
      have hcb : L[k] = cb := by
        rw [List.get?_eq_getElem? , List.getElem?_eq_getElem hlt] at hk
        exact Option.some.inj hk
      have hd : L.drop k = cb :: L.drop (k + 1) := by
        rw [← hcb]; exact List.drop_eq_getElem_cons hlt
      rw [hd] at hq ⊢
      have hb : env.body cb = [] := hq cb (by simp)
      have hcall : callListener env cb data w =
          ({ w with invoked := w.invoked ++ [(cb, data)] }, Completion.normal) := by
        simp [callListener, hb, runBody]
      simp only [hcall]
      rw [ih (k + 1) { w with invoked := w.invoked ++ [(cb, data)] } hl
        (fun x hx => hq x (by simp [List.take_succ_cons, hx]))]
      simp [List.take_succ_cons]

theorem forEachLoop_succ (env : Env) (event : Topic) (data : Val) (n k : Nat) (w : World) :
    forEachLoop env event data (n + 1) k w =
      match ((getCallbacks w.svc.listeners event).getD []).get? k with
      | none => forEachLoop env event data n (k + 1) w
      | some cb =>
        match callListener env cb data w with
        | (w1, Completion.thrown) => (w1, Completion.thrown)
        | (w1, Completion.normal) => forEachLoop env event data n (k + 1) w1 := by
  rw [forEachLoop]

theorem forEachLoop_add (env : Env) (event : Topic) (data : Val) (n m k : Nat) (w : World) :
    forEachLoop env event data (n + m) k w =
      match forEachLoop env event data n k w with
      | (w1, Completion.thrown) => (w1, Completion.thrown)
      | (w1, Completion.normal) => forEachLoop env event data m (k + n) w1 := by
  induction n generalizing k w with
  | zero => simp [forEachLoop]
  | succ n ih =>
    rw [Nat.add_right_comm n 1 m, forEachLoop_succ env event data (n + m) k w,
      forEachLoop_succ env event data n k w]
    cases ((getCallbacks w.svc.listeners event).getD []).get? k with
    | none =>
      simp only
      rw [ih (k + 1) w, Nat.add_assoc k 1 n, Nat.add_comm 1 n]
    | some cb =>
      simp only
      rcases hc : callListener env cb data w with ⟨w1, c⟩
      cases c with
      | thrown => rfl
      | normal =>
        simp only
        rw [ih (k + 1) w1, Nat.add_assoc k 1 n, Nat.add_comm 1 n]

theorem off_at (s : WebSocketService) (event : Topic) (c : Callback) (pre post : List Callback)
    (hl : getCallbacks s.listeners event = some (pre ++ c :: post)) (hc : c ∉ pre) :
    s.off event c = { s with listeners := setCallbacks s.listeners event (pre ++ post) } := by
  have hi : (pre ++ c :: post).indexOf c = pre.length := by
    rw [List.indexOf_append_of_not_mem hc, List.indexOf_cons_self, Nat.add_zero]
  unfold WebSocketService.off
  rw [hl]
  simp only [hi]
  rw [if_pos (by simp)]
  rw [List.eraseIdx_append_of_length_le (Nat.le_refl _)]
  simp

theorem callListener_off_self (env : Env) (w : World) (event : Topic) (data : Val)
    (pre post : List Callback) (c : Callback)
    (hl : getCallbacks w.svc.listeners event = some (pre ++ c :: post))
    (hc : env.body c = [Op.off event c]) (hcpre : c ∉ pre) :
    callListener env c data w =
      ({ w with
          invoked := w.invoked ++ [(c, data)]
          svc := { w.svc with listeners := setCallbacks w.svc.listeners event (pre ++ post) } },
        Completion.normal) := by
  simp only [callListener, hc, runBody, runOp]
  rw [off_at w.svc event c pre post hl hcpre]

theorem forEachLoop_self_removal (env : Env) (w : World) (event : Topic) (data : Val)
    (pre post : List Callback) (c : Callback)
    (hl : getCallbacks w.svc.listeners event = some (pre ++ c :: post))
    (hc : env.body c = [Op.off event c])
    (hq : ∀ x ∈ pre ++ post, env.body x = []) :
    forEachLoop env event data (pre.length + (post.length + 1)) 0 w =
      ({ w with
          invoked := w.invoked ++ (pre ++ c :: post.tail).map (fun x => (x, data))
          svc := { w.svc with listeners := setCallbacks w.svc.listeners event (pre ++ post) } },
        Completion.normal) := by
  have hcpre : c ∉ pre := by
    intro hm
    have := hq c (List.mem_append_left _ hm)
    rw [hc] at this
    cases this
  have h1 := forEachLoop_quiet env event data (pre ++ c :: post) pre.length 0 w hl
    (fun x hx => hq x (by simp at hx; exact List.mem_append_left _ hx))
  simp only [List.drop_zero, List.take_left'] at h1
  have hg : (pre ++ c :: post).get? pre.length = some c := by
    rw [List.get?_eq_getElem?, List.getElem?_append_right (Nat.le_refl _)]
    simp
  have h2 := callListener_off_self env
    { w with invoked := w.invoked ++ pre.map (fun x => (x, data)) } event data pre post c hl hc hcpre
  have h3 := forEachLoop_quiet env event data (pre ++ post) post.length (pre.length + 1)
    { w with
      invoked := w.invoked ++ pre.map (fun x => (x, data)) ++ [(c, data)]
      svc := { w.svc with listeners := setCallbacks w.svc.listeners event (pre ++ post) } }
    (getCallbacks_setCallbacks _ _ _)
    (fun x hx => hq x (List.mem_append_right _ (by
      rw [List.drop_append] at hx
      exact List.mem_of_mem_drop (List.mem_of_mem_take hx))))
  rw [forEachLoop_add, h1]
  simp only [Nat.zero_add]
  rw [forEachLoop_succ]
  simp only [hl, Option.getD_some, hg, h2]
  rw [h3]
  simp [List.drop_append]

/-- C2, refuted as stated: with the listeners 0, 1, 2, 3 registered for one
topic, in this order, and listener 1 removing itself while it runs, `emit`
returns but calls 0, 1 and 3 only: listener 2 is never called. -/
theorem emit_self_removal_counterexample :
    getCallbacks fourListeners.svc.listeners "event" = some [0, 1, 2, 3] ∧
    selfRemovingEnv.body 1 = [Op.off "event" 1] ∧
    (emit selfRemovingEnv "event" Val.null fourListeners).2 = Completion.normal ∧
    (emit selfRemovingEnv "event" Val.null fourListeners).1.invoked =
      [(0, Val.null), (1, Val.null), (3, Val.null)] ∧
    (2, Val.null) ∉ (emit selfRemovingEnv "event" Val.null fourListeners).1.invoked := by
  decide

/-- C2, as amended: when the listeners of a topic are `pre`, then `c`, then
`post`, the listener `c` calls `off(topic, c)` from its own body and the other
listeners leave the service alone, `emit` does not throw and calls, in this
order and once per registration, the listeners of `pre`, then `c`, then the
listeners of `post` except the first one: the listener registered right after
`c` is passed over in this dispatch. Afterwards the topic holds `pre ++ post`. -/
theorem emit_self_removal (env : Env) (w : World) (event : Topic) (data : Val)
    (pre post : List Callback) (c : Callback)
    (hl : getCallbacks w.svc.listeners event = some (pre ++ c :: post))
    (hc : env.body c = [Op.off event c])
    (hq : ∀ x ∈ pre ++ post, env.body x = []) :
    (emit env event data w).2 = Completion.normal ∧
    (emit env event data w).1.invoked =
      w.invoked ++ (pre ++ c :: post.tail).map (fun x => (x, data)) ∧
    getCallbacks (emit env event data w).1.svc.listeners event = some (pre ++ post) := by
  have h := forEachLoop_self_removal env { w with emitted := w.emitted ++ [(event, data)] }
    event data pre post c hl hc hq
  have hlen : (pre ++ c :: post).length = pre.length + (post.length + 1) := by simp
  unfold emit
  simp only [hl, hlen, h]
  exact ⟨trivial, trivial, getCallbacks_setCallbacks _ _ _⟩

/-- C2, as amended, at the listeners 0, 1, 2, 3 with listener 1 removing
itself. -/
theorem emit_self_removal_witness :
    getCallbacks fourListeners.svc.listeners "event" = some ([0] ++ 1 :: [2, 3]) ∧
    (emit selfRemovingEnv "event" Val.null fourListeners).1.invoked =
      fourListeners.invoked ++ ([0] ++ 1 :: [2, 3].tail).map (fun x => (x, Val.null)) :=
  ⟨by decide,
    (emit_self_removal selfRemovingEnv fourListeners "event" Val.null [0] [2, 3] 1 (by decide)
      (by decide) (by decide)).2.1⟩

/-! ## Runs without a successful open -/

theorem Framed.steady {w w1 : World} (h : Framed w w1) : Steady w w1 :=
  ⟨h.attempts, h.maxAttempts, h.delay, by rw [h.timers]⟩

theorem emit_steady (env : Env) (event : Topic) (data : Val) (w : World) :
    Steady w (emit env event data w).1 :=
  let h := emit_framed env event data w
  ⟨h.attempts, h.maxAttempts, h.delay, by rw [h.timers]⟩

theorem onmessage_steady (env : Env) (text : String) (w : World) :
    Steady w (onmessage env text w).1 := by
  unfold onmessage
  split
  · exact (Framed.refl w).steady
  · next data _ =>
    have h1 := emit_steady env "message" data w
    split
    · next w1 heq => rw [heq] at h1; exact h1
    · next w1 heq =>
      rw [heq] at h1
      split
      · exact h1
      · split
        · split
          · exact h1
          · next payload _ =>
            have h2 := emit_steady env "event" payload w1
            exact ⟨h2.attempts.trans h1.attempts, h2.maxAttempts.trans h1.maxAttempts,
              h2.delay.trans h1.delay, h2.delays.trans h1.delays⟩
        · exact h1

theorem map_modify_same {α β : Type} (g : α → β) (f : α → α) (h : ∀ a, g (f a) = g a) :
    ∀ (n : Nat) (l : List α), (List.modify f n l).map g = l.map g
  | _, [] => by simp
  | 0, a :: l => by simp [h]
  | n + 1, a :: l => by simp [map_modify_same g f h n l]

theorem timerEvent_steady (env : Env) (j : Nat) (w w1 : World)
    (h : timerEvent env j w = some w1) : Steady w w1 := by
  unfold timerEvent at h
  split at h
  · split at h
    · cases h
    · have hc := connect_framed env
        { w with timers := w.timers.modify (fun t => { t with fired := true }) j }
      rw [Option.some.inj h] at hc
      refine ⟨hc.attempts, hc.maxAttempts, hc.delay, ?_⟩
      rw [hc.timers]
      exact map_modify_same Timer.delay (fun t => { t with fired := true }) (fun _ => rfl) j
        w.timers
  · cases h

theorem messageEvent_steady (env : Env) (i : Nat) (text : String) (w : World)
    (r : World × Completion) (h : messageEvent env i text w = some r) : Steady w r.1 := by
  unfold messageEvent at h
  split at h
  · split at h
    · rw [← Option.some.inj h]; exact onmessage_steady env text w
    · cases h
  · cases h

theorem errorEvent_steady (env : Env) (i : Nat) (error : Val) (w : World)
    (r : World × Completion) (h : errorEvent env i error w = some r) : Steady w r.1 := by
  unfold errorEvent at h
  split at h
  · split at h
    · cases h
    · rw [← Option.some.inj h]; exact emit_steady env "error" error w
  · cases h

/-- An event that is neither an open nor a close of a transport leaves the
reconnection state alone. -/
theorem step_steady (env : Env) (e : Event) (w w1 : World) (ho : e.isOpened = false)
    (hc : e.isClosed = false) (h : step env e w = some w1) : Steady w w1 := by
  match e with
  | .callConnect => rw [← Option.some.inj h]; exact (connect_framed env w).steady
  | .callDisconnect => rw [← Option.some.inj h]; exact (disconnect_framed w).steady
  | .callSend data => rw [← Option.some.inj h]; exact (send_framed env data w).steady
  | .callOn event cb => rw [← Option.some.inj h]; exact (on_framed w event cb).steady
  | .callOff event cb => rw [← Option.some.inj h]; exact (off_framed w event cb).steady
  | .opened i => cases ho
  | .closed i => cases hc
  | .message i text =>
    simp only [step, Option.map_eq_some'] at h
    obtain ⟨r, hr, rfl⟩ := h
    exact messageEvent_steady env i text w r hr
  | .errored i error =>
    simp only [step, Option.map_eq_some'] at h
    obtain ⟨r, hr, rfl⟩ := h
    exact errorEvent_steady env i error w r hr
  | .timer j => exact timerEvent_steady env j w w1 h

/-- A close event: the handler ends as its dispatch of `connected = false`
ends; when it returns and the counter is below the maximum, it counts one
attempt and arms one timer; otherwise the counter and timers are unchanged. -/
theorem closeEvent_effect (env : Env) (i : Nat) (w : World) (r : World × Completion)
    (h : closeEvent env i w = some r) :
    r.2 = (emit env "connected" (Val.bool false) (setReadyState w i ReadyState.CLOSED)).2 ∧
    r.1.svc.maxReconnectAttempts = w.svc.maxReconnectAttempts ∧
    r.1.svc.reconnectDelay = w.svc.reconnectDelay ∧
    ((r.2 = Completion.normal ∧ w.svc.reconnectAttempts < w.svc.maxReconnectAttempts) →
      r.1.svc.reconnectAttempts = w.svc.reconnectAttempts + 1 ∧
      r.1.timers = w.timers ++
        [{ delay := w.svc.reconnectDelay * 2 ^ w.svc.reconnectAttempts, fired := false }]) ∧
    (¬ (r.2 = Completion.normal ∧ w.svc.reconnectAttempts < w.svc.maxReconnectAttempts) →
      r.1.svc.reconnectAttempts = w.svc.reconnectAttempts ∧ r.1.timers = w.timers) := by
  have hr := closeEvent_eq env i w r h
  have ho := onclose_effect env (setReadyState w i ReadyState.CLOSED)
  rw [← hr] at ho
  refine ⟨?_, ho.1, ho.2.1, ho.2.2.2.1, ho.2.2.2.2⟩
  rw [hr]
  unfold onclose
  split
  · next w1 heq => rw [heq]
  · next w1 heq => rw [heq]

theorem returnedCloses_cons (env : Env) (e : Event) (es : List Event) (w w1 : World)
    (h : step env e w = some w1) :
    returnedCloses env (e :: es) w =
      (if closeReturns env e w then 1 else 0) + returnedCloses env es w1 := by
  simp only [returnedCloses, h]

theorem closeReturns_of_not_closed (env : Env) (e : Event) (w : World)
    (h : e.isClosed = false) : closeReturns env e w = false := by
  cases e <;> first | rfl | cases h

theorem closeReturns_closed (env : Env) (i : Nat) (w : World) (r : World × Completion)
    (h : closeEvent env i w = some r) :
    closeReturns env (Event.closed i) w = decide (r.2 = Completion.normal) := by
  simp only [closeReturns, h]

/-- The reconnection state after a run without a successful open: every close
whose handler returns counts one attempt and arms one timer with the next
power of two, until the maximum is reached; a close whose handler is left by
an exception counts for nothing. -/
theorem run_noOpen (env : Env) (es : List Event) :
    ∀ (w w1 : World), (∀ e ∈ es, e.isOpened = false) → run env es w = some w1 →
      w.svc.reconnectAttempts ≤ w.svc.maxReconnectAttempts →
      w1.svc.maxReconnectAttempts = w.svc.maxReconnectAttempts ∧
      w1.svc.reconnectDelay = w.svc.reconnectDelay ∧
      w1.svc.reconnectAttempts =
        min (w.svc.reconnectAttempts + returnedCloses env es w) w.svc.maxReconnectAttempts ∧
      w1.timers.map Timer.delay = w.timers.map Timer.delay ++
        (List.range' w.svc.reconnectAttempts
          (min (w.svc.reconnectAttempts + returnedCloses env es w) w.svc.maxReconnectAttempts -
            w.svc.reconnectAttempts)).map (fun a => w.svc.reconnectDelay * 2 ^ a) := by
  induction es with
  | nil =>
    intro w w1 _ hrun hle
    cases hrun
    simp [returnedCloses, Nat.min_eq_left hle]
  | cons e es ih =>
    intro w w1 hno hrun hle
    simp only [run, Option.bind_eq_some] at hrun
    obtain ⟨w2, hstep, hrest⟩ := hrun
    have hno1 : ∀ e1 ∈ es, e1.isOpened = false := fun e1 h1 => hno e1 (List.mem_cons_of_mem _ h1)
    have heo : e.isOpened = false := hno e (List.mem_cons_self _ _)
    have hcons := returnedCloses_cons env e es w w2 hstep
    by_cases hcl : e.isClosed = true
    · obtain ⟨i, rfl⟩ : ∃ i, e = Event.closed i := by
        cases e <;> first | exact ⟨_, rfl⟩ | cases hcl
      simp only [step, Option.map_eq_some'] at hstep
      obtain ⟨r, hr, rfl⟩ := hstep
      obtain ⟨_, hm, hd, hlt, hge⟩ := closeEvent_effect env i w r hr
      rw [closeReturns_closed env i w r hr] at hcons
      by_cases hn : r.2 = Completion.normal
      · have hcount : returnedCloses env (Event.closed i :: es) w =
            returnedCloses env es r.1 + 1 := by
          rw [hcons]; simp [hn, Nat.add_comm]
        by_cases hb : w.svc.reconnectAttempts < w.svc.maxReconnectAttempts
        · obtain ⟨ha, ht⟩ := hlt ⟨hn, hb⟩
          obtain ⟨im, idl, ia, it⟩ := ih r.1 w1 hno1 hrest (by rw [ha, hm]; exact hb)
          rw [hm] at im
          rw [hd] at idl
          rw [ha, hm] at ia
          rw [ha, hm, hd, ht] at it
          have hk : min (w.svc.reconnectAttempts + (returnedCloses env es r.1 + 1))
              w.svc.maxReconnectAttempts - w.svc.reconnectAttempts =
              (min (w.svc.reconnectAttempts + 1 + returnedCloses env es r.1)
                w.svc.maxReconnectAttempts - (w.svc.reconnectAttempts + 1)) + 1 := by
            omega
          refine ⟨im, idl, ?_, ?_⟩
          · rw [ia, hcount]; congr 1; omega
          · rw [it, hcount, hk, List.range'_succ]
            simp
        · have hge1 : w.svc.maxReconnectAttempts ≤ w.svc.reconnectAttempts := Nat.not_lt.mp hb
          obtain ⟨ha, ht⟩ := hge (fun hh => hb hh.2)
          obtain ⟨im, idl, ia, it⟩ := ih r.1 w1 hno1 hrest (by rw [ha, hm]; exact hle)
          rw [hm] at im
          rw [hd] at idl
          rw [ha, hm] at ia
          rw [ha, hm, hd, ht] at it
          refine ⟨im, idl, ?_, ?_⟩
          · rw [ia, hcount]; omega
          · rw [it, hcount]
            have h1 : min (w.svc.reconnectAttempts + returnedCloses env es r.1)
                w.svc.maxReconnectAttempts - w.svc.reconnectAttempts = 0 := by omega
            have h2 : min (w.svc.reconnectAttempts + (returnedCloses env es r.1 + 1))
                w.svc.maxReconnectAttempts - w.svc.reconnectAttempts = 0 := by omega
            rw [h1, h2]
      · have hcount : returnedCloses env (Event.closed i :: es) w =
            returnedCloses env es r.1 := by
          rw [hcons]; simp [hn]
        obtain ⟨ha, ht⟩ := hge (fun hh => hn hh.1)
        obtain ⟨im, idl, ia, it⟩ := ih r.1 w1 hno1 hrest (by rw [ha, hm]; exact hle)
        rw [hm] at im
        rw [hd] at idl
        rw [ha, hm] at ia
        rw [ha, hm, hd, ht] at it
        rw [hcount]
        exact ⟨im, idl, ia, it⟩
    · have hcl1 : e.isClosed = false := by simpa using hcl
      have hcount : returnedCloses env (e :: es) w = returnedCloses env es w2 := by
        rw [hcons, closeReturns_of_not_closed env e w hcl1]; simp
      have hs := step_steady env e w w2 heo hcl1 hstep
      obtain ⟨im, idl, ia, it⟩ := ih w2 w1 hno1 hrest (by rw [hs.attempts, hs.maxAttempts]; exact hle)
      rw [hs.maxAttempts] at im
      rw [hs.delay] at idl
      rw [hs.attempts, hs.maxAttempts] at ia
      rw [hs.attempts, hs.maxAttempts, hs.delay, hs.delays] at it
      rw [hcount]
      exact ⟨im, idl, ia, it⟩

/-- C3, refuted as stated: on a fresh service with a listener for `connected`
that throws, the first close after `connect()` arms no retry at all: the
exception leaves the close handler before the reconnection procedure. -/
theorem reconnect_delay_counterexample :
    connectedThrower.svc.reconnectAttempts = 0 ∧
    connectedThrower.svc.maxReconnectAttempts = 5 ∧
    connectedThrower.timers = [] ∧
    (closeEvent throwingEnv 0 connectedThrower).map (fun r => (r.1.timers, r.2)) =
      some ([], Completion.thrown) := by
  decide

/-- C3, as amended: in a run that starts with a counter of 0 and contains no
successful open, the n-th close whose dispatch of `connected = false` returns
(the one that follows `n - 1` earlier such closes), for
`1 ≤ n ≤ maxReconnectAttempts`, arms exactly one timer, with delay
`reconnectDelay * 2 ^ (n - 1)`; a close whose dispatch is left by an exception
of a listener arms nothing; with a base delay of 1000 and a maximum of 5 the
delays armed by the run are 1000, 2000, 4000, 8000, 16000. -/
theorem reconnect_delay_sequence (env : Env) (w0 w1 : World)
    (es : List Event) (hno : ∀ e ∈ es, e.isOpened = false)
    (h0 : w0.svc.reconnectAttempts = 0) (hrun : run env es w0 = some w1) :
    (∀ (n i : Nat) (r : World × Completion), 1 ≤ n → n ≤ w0.svc.maxReconnectAttempts →
      returnedCloses env es w0 = n - 1 → closeEvent env i w1 = some r →
      r.2 = Completion.normal →
      r.1.timers = w1.timers ++
        [{ delay := w0.svc.reconnectDelay * 2 ^ (n - 1), fired := false }]) ∧
    (∀ (i : Nat) (r : World × Completion), closeEvent env i w1 = some r →
      r.2 = Completion.thrown → r.1.timers = w1.timers) ∧
    (w0.svc.reconnectDelay = 1000 → w0.svc.maxReconnectAttempts = 5 →
      5 ≤ returnedCloses env es w0 →
      (w1.timers.map Timer.delay).drop w0.timers.length =
        [1000, 2000, 4000, 8000, 16000]) := by
  obtain ⟨hm, hd, ha, ht⟩ := run_noOpen env es w0 w1 hno hrun (by rw [h0]; exact Nat.zero_le _)
  rw [h0, Nat.zero_add] at ha
  rw [h0, Nat.zero_add, Nat.sub_zero] at ht
  refine ⟨?_, ?_, ?_⟩
  · intro n i r h1 hn hcl hc hret
    obtain ⟨_, _, _, hlt, _⟩ := closeEvent_effect env i w1 r hc
    have hcount : w1.svc.reconnectAttempts = n - 1 := by rw [ha, hcl]; omega
    have hb : w1.svc.reconnectAttempts < w1.svc.maxReconnectAttempts := by
      rw [hcount, hm]; omega
    rw [(hlt ⟨hret, hb⟩).2, hd, hcount]
  · intro i r hc hthrown
    obtain ⟨_, _, _, _, hge⟩ := closeEvent_effect env i w1 r hc
    exact (hge (fun hh => by rw [hthrown] at hh; exact absurd hh.1 (by decide))).2
  · intro hbase hmax h5
    rw [ht, hbase, hmax, Nat.min_eq_right h5,
      List.drop_left' (List.length_map w0.timers Timer.delay)]
    rfl

/-- C3, as amended, at the defaults: a fresh service whose transport closes
five times. -/
theorem reconnect_delay_sequence_witness :
    run quietEnv fiveCloses World.initial =
      some ((run quietEnv fiveCloses World.initial).getD World.initial) ∧
    5 ≤ returnedCloses quietEnv fiveCloses World.initial ∧
    ((((run quietEnv fiveCloses World.initial).getD World.initial).timers.map Timer.delay).drop
      World.initial.timers.length = [1000, 2000, 4000, 8000, 16000]) :=
  ⟨by decide, by decide,
    (reconnect_delay_sequence quietEnv World.initial
      ((run quietEnv fiveCloses World.initial).getD World.initial) fiveCloses (by decide)
      (by decide) (by decide)).2.2 (by decide) (by decide) (by decide)⟩

/-- C4, refuted as stated: on a fresh service with a listener for `connected`
that throws, the first close after `connect()` leaves the counter at 0 and the
close handler is left by the exception; a second transport that closes leaves
the counter at 0 again. -/
theorem reconnect_attempts_counterexample :
    connectedThrower.svc.reconnectAttempts = 0 ∧
    (closeEvent throwingEnv 0 connectedThrower).map
        (fun r => (r.1.svc.reconnectAttempts, r.2)) = some (0, Completion.thrown) ∧
    (run throwingEnv [.closed 0, .callConnect, .closed 1] connectedThrower).map
        (fun w => (w.svc.reconnectAttempts, w.timers)) = some (0, []) := by
  decide

/-- C4, as amended: in a run that starts with a counter of 0 and contains no
successful open, the counter equals the number of closes whose dispatch of
`connected = false` returned, capped at `maxReconnectAttempts`. A further
close ends as its dispatch ends (it raises an error only when a listener
throws). When its dispatch returns and fewer than `maxReconnectAttempts` such
closes came before, it raises the counter by exactly one and arms exactly one
timer; when its dispatch returns and `maxReconnectAttempts` or more came
before, it leaves the counter and the timers as they are; when a listener
throws, it leaves them as they are too. -/
theorem reconnect_attempts_capped (env : Env) (w0 w1 : World)
    (es : List Event) (hno : ∀ e ∈ es, e.isOpened = false)
    (h0 : w0.svc.reconnectAttempts = 0) (hrun : run env es w0 = some w1) :
    w1.svc.reconnectAttempts = min (returnedCloses env es w0) w0.svc.maxReconnectAttempts ∧
    ∀ (i : Nat) (r : World × Completion), closeEvent env i w1 = some r →
      r.2 = (emit env "connected" (Val.bool false)
        (setReadyState w1 i ReadyState.CLOSED)).2 ∧
      (r.2 = Completion.normal → returnedCloses env es w0 < w0.svc.maxReconnectAttempts →
        r.1.svc.reconnectAttempts = w1.svc.reconnectAttempts + 1 ∧
        r.1.timers = w1.timers ++
          [{ delay := w0.svc.reconnectDelay * 2 ^ returnedCloses env es w0,
             fired := false }]) ∧
      (r.2 = Completion.normal → w0.svc.maxReconnectAttempts ≤ returnedCloses env es w0 →
        r.1.svc.reconnectAttempts = w1.svc.reconnectAttempts ∧ r.1.timers = w1.timers) ∧
      (r.2 = Completion.thrown →
        r.1.svc.reconnectAttempts = w1.svc.reconnectAttempts ∧ r.1.timers = w1.timers) := by
  obtain ⟨hm, hd, ha, _⟩ := run_noOpen env es w0 w1 hno hrun (by rw [h0]; exact Nat.zero_le _)
  rw [h0, Nat.zero_add] at ha
  refine ⟨ha, ?_⟩
  intro i r hc
  obtain ⟨hend, _, _, hlt, hge⟩ := closeEvent_effect env i w1 r hc
  refine ⟨hend, ?_, ?_, ?_⟩
  · intro hn hb
    have hcount : w1.svc.reconnectAttempts = returnedCloses env es w0 := by rw [ha]; omega
    have := hlt ⟨hn, by rw [hcount, hm]; exact hb⟩
    rw [hd, hcount] at this
    rw [hcount]
    exact this
  · intro _ hb
    exact hge (fun hh => by
      have := hh.2
      rw [ha, hm] at this
      omega)
  · intro hthrown
    exact hge (fun hh => by rw [hthrown] at hh; exact absurd hh.1 (by decide))

/-- C4, as amended, at the defaults: after five closes and the fifth retry,
the sixth close changes neither the counter nor the timers. -/
theorem reconnect_attempts_capped_witness :
    run quietEnv (fiveCloses ++ [Event.timer 4]) World.initial =
      some ((run quietEnv (fiveCloses ++ [Event.timer 4]) World.initial).getD World.initial) ∧
    ((run quietEnv (fiveCloses ++ [Event.timer 4]) World.initial).getD
      World.initial).svc.reconnectAttempts =
      min (returnedCloses quietEnv (fiveCloses ++ [Event.timer 4]) World.initial)
        World.initial.svc.maxReconnectAttempts ∧
    (onclose quietEnv (setReadyState
      ((run quietEnv (fiveCloses ++ [Event.timer 4]) World.initial).getD World.initial) 5
      ReadyState.CLOSED)).1.timers =
      ((run quietEnv (fiveCloses ++ [Event.timer 4]) World.initial).getD World.initial).timers :=
  ⟨by decide,
    (reconnect_attempts_capped quietEnv World.initial
      ((run quietEnv (fiveCloses ++ [Event.timer 4]) World.initial).getD World.initial)
      (fiveCloses ++ [Event.timer 4]) (by decide) (by decide) (by decide)).1,
    (((reconnect_attempts_capped quietEnv World.initial
      ((run quietEnv (fiveCloses ++ [Event.timer 4]) World.initial).getD World.initial)
      (fiveCloses ++ [Event.timer 4]) (by decide) (by decide) (by decide)).2 5
      (onclose quietEnv (setReadyState
        ((run quietEnv (fiveCloses ++ [Event.timer 4]) World.initial).getD World.initial) 5
        ReadyState.CLOSED)) (by decide)).2.2.1 (by decide) (by decide)).2⟩

/-! ## Inbound messages -/

/-- C5: when the text of an inbound message does not parse, the message
handler returns without throwing and the world is exactly what it was: no
`emit` happened on any topic, no listener was called, and the connection state
is unchanged. -/
theorem onmessage_parse_failure (env : Env) (text : String) (w : World)
    (h : env.parse text = none) : onmessage env text w = (w, Completion.normal) := by
  unfold onmessage
  rw [h]

/-- C5 at a concrete text on a fresh service. -/
theorem onmessage_parse_failure_witness :
    quietEnv.parse "not json" = none ∧
    onmessage quietEnv "not json" World.initial = (World.initial, Completion.normal) :=
  ⟨rfl, onmessage_parse_failure quietEnv "not json" World.initial rfl⟩

/-- C6, refuted as stated: with the listeners 0, 1, 2 registered for
`message`, listener 1 throwing, an envelope of type `event` makes the handler
emit the `message` notification only: no `event` notification is emitted. -/
theorem onmessage_envelope_counterexample :
    throwingEnv.parse "\x7b\"type\":\"event\",\"payload\":42\x7d" =
      some (Val.obj (.cons "type" (.str "event") (.cons "payload" (.num 42) .nil))) ∧
    (onmessage throwingEnv "\x7b\"type\":\"event\",\"payload\":42\x7d"
      messageListeners).1.emitted =
      [("message", Val.obj (.cons "type" (.str "event") (.cons "payload" (.num 42) .nil)))] := by
  decide

/-- C6, as amended: when the text parses to an object (an envelope), the
handler does not throw and emits exactly one `message` carrying the whole
envelope; when the dispatch of `message` returns and the value of `type` is
the string `event`, it then emits exactly one `event` carrying the value of
`payload`; when `type` is anything else, or when a listener of `message`
throws, it emits nothing more. -/
theorem onmessage_envelope (env : Env) (text : String) (w : World) (fields : Fields)
    (hp : env.parse text = some (Val.obj fields)) :
    (onmessage env text w).2 = Completion.normal ∧
    ((emit env "message" (Val.obj fields) w).2 = Completion.normal →
      fields.lookup "type" = Val.str "event" →
      (onmessage env text w).1.emitted = w.emitted ++
        [("message", Val.obj fields), ("event", fields.lookup "payload")]) ∧
    ((emit env "message" (Val.obj fields) w).2 = Completion.normal →
      fields.lookup "type" ≠ Val.str "event" →
      (onmessage env text w).1.emitted = w.emitted ++ [("message", Val.obj fields)]) ∧
    ((emit env "message" (Val.obj fields) w).2 = Completion.thrown →
      (onmessage env text w).1.emitted = w.emitted ++ [("message", Val.obj fields)]) := by
  have h1 := emit_framed env "message" (Val.obj fields) w
  unfold onmessage
  rw [hp]
  simp only
  rcases hm : emit env "message" (Val.obj fields) w with ⟨w1, c⟩
  rw [hm] at h1
  have he1 : w1.emitted = w.emitted ++ [("message", Val.obj fields)] := h1.emitted
  cases c with
  | thrown =>
    exact ⟨rfl, fun h _ => Completion.noConfusion h, fun h _ => Completion.noConfusion h,
      fun _ => he1⟩
  | normal =>
    simp only [Val.getProp]
    by_cases ht : fields.lookup "type" = Val.str "event"
    · rw [if_pos ht]
      have h2 := emit_framed env "event" (fields.lookup "payload") w1
      have he2 : (emit env "event" (fields.lookup "payload") w1).1.emitted =
          w1.emitted ++ [("event", fields.lookup "payload")] := h2.emitted
      refine ⟨rfl, fun _ _ => ?_, fun _ hne => absurd ht hne,
        fun h => Completion.noConfusion h⟩
      simp only [he2, he1, List.append_assoc, List.singleton_append]
    · rw [if_neg ht]
      exact ⟨rfl, fun _ h => absurd h ht, fun _ _ => he1, fun h => Completion.noConfusion h⟩

/-- C6, as amended, at an envelope of type `event` with payload 42, on a fresh
service. -/
theorem onmessage_envelope_witness :
    envelopeEnv.parse "\x7b\"type\":\"event\",\"payload\":42\x7d" =
      some (Val.obj (.cons "type" (.str "event") (.cons "payload" (.num 42) .nil))) ∧
    (onmessage envelopeEnv "\x7b\"type\":\"event\",\"payload\":42\x7d" World.initial).1.emitted =
      World.initial.emitted ++
        [("message", Val.obj (.cons "type" (.str "event") (.cons "payload" (.num 42) .nil))),
          ("event", Fields.lookup (.cons "type" (.str "event") (.cons "payload" (.num 42) .nil))
            "payload")] :=
  ⟨by decide,
    (onmessage_envelope envelopeEnv "\x7b\"type\":\"event\",\"payload\":42\x7d" World.initial
      (.cons "type" (.str "event") (.cons "payload" (.num 42) .nil)) (by decide)).2.1
      (by decide) (by decide)⟩

/-! ## Retries, handles and live transports -/

theorem disconnect_socket (w : World) : (disconnect w).svc.socket = none := by
  unfold disconnect
  split
  · rfl
  · next h => exact h

theorem disconnect_timers (w : World) : (disconnect w).timers = w.timers :=
  (disconnect_framed w).timers

theorem disconnect_length (w : World) : (disconnect w).transports.length = w.transports.length := by
  unfold disconnect
  split
  · simp
  · rfl

theorem connect_of_not_open (env : Env) (w : World) (h : w.socketState ≠ some ReadyState.OPEN)
    (hu : env.urlOk = true) :
    connect env w =
      { w with
        transports := w.transports ++ [{ readyState := .CONNECTING, sent := [] }]
        svc := { w.svc with socket := some w.transports.length } } := by
  unfold connect
  rw [if_neg h, if_pos hu]

/-- C7, refuted as stated: on a fresh service after `connect()` and a first
close, one retry of 1000 ms is pending; after `disconnect()` it is still
pending, and when it fires `connect()` runs and creates a second transport,
which becomes the handle. -/
theorem disconnect_keeps_retry_counterexample :
    afterFirstClose.pending = [{ delay := 1000, fired := false }] ∧
    (disconnect afterFirstClose).pending = [{ delay := 1000, fired := false }] ∧
    (timerEvent quietEnv 0 (disconnect afterFirstClose)).map
        (fun w1 => (w1.svc.socket, w1.transports)) =
      some (some 1, [{ readyState := .CLOSED, sent := [] },
        { readyState := .CONNECTING, sent := [] }]) := by
  decide

/-- C7, as amended: `disconnect()` leaves the timers as they are, so a retry
that is armed and has not fired stays pending; when it fires, `connect()`
runs, and because `disconnect()` has cleared the handle it creates a new
transport (when the URL is accepted), which becomes the handle. -/
theorem disconnect_keeps_retry (env : Env) (w : World) (j : Nat) (t : Timer)
    (hj : w.timers.get? j = some t) (hf : t.fired = false) (hu : env.urlOk = true) :
    (disconnect w).timers = w.timers ∧
    ∃ w1, timerEvent env j (disconnect w) = some w1 ∧
      w1.transports = (disconnect w).transports ++ [{ readyState := .CONNECTING, sent := [] }] ∧
      w1.svc.socket = some w.transports.length := by
  refine ⟨disconnect_timers w, ?_⟩
  have hj1 : (disconnect w).timers.get? j = some t := by rw [disconnect_timers]; exact hj
  have hs : World.socketState
      { disconnect w with
        timers := (disconnect w).timers.modify (fun t => { t with fired := true }) j } ≠
      some ReadyState.OPEN := by
    unfold World.socketState
    simp only [disconnect_socket]
    exact fun h => nomatch h
  refine ⟨connect env
    { disconnect w with
      timers := (disconnect w).timers.modify (fun t => { t with fired := true }) j }, ?_, ?_, ?_⟩
  · unfold timerEvent
    rw [hj1]
    simp [hf]
  · rw [connect_of_not_open env _ hs hu]
  · rw [connect_of_not_open env _ hs hu]
    simp only [disconnect_length]

/-- C7, as amended, at the fresh service after `connect()` and a first close. -/
theorem disconnect_keeps_retry_witness :
    afterFirstClose.timers.get? 0 = some { delay := 1000, fired := false } ∧
    (disconnect afterFirstClose).timers = afterFirstClose.timers :=
  ⟨by decide,
    (disconnect_keeps_retry quietEnv afterFirstClose 0 { delay := 1000, fired := false }
      (by decide) rfl rfl).1⟩

/-- C8, refuted as stated: two calls of `connect()` in a row on a fresh
service leave two live transports, both still connecting. -/
theorem connect_twice_counterexample :
    (connect quietEnv World.initial).socketState = some ReadyState.CONNECTING ∧
    (connect quietEnv (connect quietEnv World.initial)).transports =
      [{ readyState := .CONNECTING, sent := [] }, { readyState := .CONNECTING, sent := [] }] ∧
    (connect quietEnv (connect quietEnv World.initial)).liveCount = 2 := by
  decide

/-- C8, as amended: `connect()` changes nothing when the transport of the
current handle is open; in every other state (no handle, or a handle whose
transport is connecting, closing or closed) it creates exactly one transport
and leaves the existing transports as they are, so that the number of live
transports grows by one; when the URL is refused it changes nothing. -/
theorem connect_live_transports (env : Env) (w : World) :
    (w.socketState = some ReadyState.OPEN → connect env w = w) ∧
    (w.socketState ≠ some ReadyState.OPEN → env.urlOk = true →
      (connect env w).transports =
        w.transports ++ [{ readyState := .CONNECTING, sent := [] }] ∧
      (connect env w).liveCount = w.liveCount + 1) ∧
    (w.socketState ≠ some ReadyState.OPEN → env.urlOk = false → connect env w = w) := by
  refine ⟨fun h => ?_, fun h hu => ?_, fun h hu => ?_⟩
  · unfold connect
    rw [if_pos h]
  · rw [connect_of_not_open env w h hu]
    refine ⟨rfl, ?_⟩
    simp [World.liveCount, List.filter_append]
  · unfold connect
    rw [if_neg h, hu]
    rfl

/-- C8, as amended, at a service whose transport is still connecting. -/
theorem connect_live_transports_witness :
    (connect quietEnv World.initial).socketState ≠ some ReadyState.OPEN ∧
    (connect quietEnv (connect quietEnv World.initial)).liveCount =
      (connect quietEnv World.initial).liveCount + 1 :=
  ⟨by decide,
    ((connect_live_transports quietEnv (connect quietEnv World.initial)).2.1 (by decide) rfl).2⟩

/-! ## The open handler -/

theorem onopen_effect (env : Env) (w : World) :
    (onopen env w).1.svc.reconnectAttempts = 0 ∧
    (onopen env w).1.svc.maxReconnectAttempts = w.svc.maxReconnectAttempts ∧
    (onopen env w).1.svc.reconnectDelay = w.svc.reconnectDelay ∧
    (onopen env w).1.emitted = w.emitted ++ [("connected", Val.bool true)] :=
  let h := emit_framed env "connected" (Val.bool true)
    { w with svc := { w.svc with reconnectAttempts := 0 } }
  ⟨h.attempts, h.maxAttempts, h.delay, h.emitted⟩

theorem openEvent_reset (env : Env) (i : Nat) (w : World) (r : World × Completion)
    (h : openEvent env i w = some r) :
    r.1.svc.reconnectAttempts = 0 ∧
    r.1.svc.maxReconnectAttempts = w.svc.maxReconnectAttempts ∧
    r.1.svc.reconnectDelay = w.svc.reconnectDelay := by
  unfold openEvent at h
  split at h
  · split at h
    · rw [← Option.some.inj h]
      have ho := onopen_effect env (setReadyState w i ReadyState.OPEN)
      exact ⟨ho.1, ho.2.1, ho.2.2.1⟩
    · cases h
  · cases h

/-- A run without a close keeps a counter of 0 at 0. -/
theorem run_noClose (env : Env) (es : List Event) :
    ∀ (w w1 : World), (∀ e ∈ es, e.isClosed = false) → run env es w = some w1 →
      w.svc.reconnectAttempts = 0 →
      w1.svc.reconnectAttempts = 0 ∧
      w1.svc.maxReconnectAttempts = w.svc.maxReconnectAttempts ∧
      w1.svc.reconnectDelay = w.svc.reconnectDelay := by
  induction es with
  | nil =>
    intro w w1 _ hrun h0
    cases hrun
    exact ⟨h0, rfl, rfl⟩
  | cons e es ih =>
    intro w w1 hno hrun h0
    simp only [run, Option.bind_eq_some] at hrun
    obtain ⟨w2, hstep, hrest⟩ := hrun
    have hno1 : ∀ e1 ∈ es, e1.isClosed = false := fun e1 h1 => hno e1 (List.mem_cons_of_mem _ h1)
    have hec : e.isClosed = false := hno e (List.mem_cons_self _ _)
    have h2 : w2.svc.reconnectAttempts = 0 ∧
        w2.svc.maxReconnectAttempts = w.svc.maxReconnectAttempts ∧
        w2.svc.reconnectDelay = w.svc.reconnectDelay := by
      by_cases heo : e.isOpened = true
      · obtain ⟨i, rfl⟩ : ∃ i, e = Event.opened i := by
          cases e <;> first | exact ⟨_, rfl⟩ | cases heo
        simp only [step, Option.map_eq_some'] at hstep
        obtain ⟨r, hr, rfl⟩ := hstep
        exact openEvent_reset env i w r hr
      · have hs := step_steady env e w w2 (by simpa using heo) hec hstep
        exact ⟨hs.attempts.trans h0, hs.maxAttempts, hs.delay⟩
    obtain ⟨ia, im, idl⟩ := ih w2 w1 hno1 hrest h2.1
    exact ⟨ia, im.trans h2.2.1, idl.trans h2.2.2⟩

/-- C9: whatever the counter is, the open handler sets it to 0 and calls `emit`
exactly once, with `connected` and `true`. Consequently, after any further run
that contains no close, the next close whose dispatch returns arms its retry
with the base delay `reconnectDelay` (the maximum being at least 1). -/
theorem onopen_resets (env : Env) (w : World) :
    (onopen env w).1.svc.reconnectAttempts = 0 ∧
    (onopen env w).1.emitted = w.emitted ++ [("connected", Val.bool true)] ∧
    ∀ (es : List Event) (w1 : World) (i : Nat) (r : World × Completion),
      (∀ e ∈ es, e.isClosed = false) → run env es (onopen env w).1 = some w1 →
      closeEvent env i w1 = some r → r.2 = Completion.normal →
      0 < w.svc.maxReconnectAttempts →
      r.1.svc.reconnectAttempts = 1 ∧
      r.1.timers = w1.timers ++ [{ delay := w.svc.reconnectDelay, fired := false }] := by
  obtain ⟨ha, hm, hd, he⟩ := onopen_effect env w
  refine ⟨ha, he, ?_⟩
  intro es w1 i r hno hrun hc hn hpos
  obtain ⟨ia, im, idl⟩ := run_noClose env es (onopen env w).1 w1 hno hrun ha
  have hr := closeEvent_eq env i w1 r hc
  have ho := onclose_effect env (setReadyState w1 i ReadyState.CLOSED)
  rw [← hr] at ho
  have ha1 : (setReadyState w1 i ReadyState.CLOSED).svc.reconnectAttempts = 0 := ia
  have hm1 : (setReadyState w1 i ReadyState.CLOSED).svc.maxReconnectAttempts =
      w.svc.maxReconnectAttempts := im.trans hm
  have hd1 : (setReadyState w1 i ReadyState.CLOSED).svc.reconnectDelay =
      w.svc.reconnectDelay := idl.trans hd
  have ht1 : (setReadyState w1 i ReadyState.CLOSED).timers = w1.timers := rfl
  rw [ha1, hm1, hd1, ht1] at ho
  have := ho.2.2.2.1 ⟨hn, hpos⟩
  simpa using this

/-- C9 at a service that has used up its five attempts: the sixth transport
opens, and the close that follows arms a retry of 1000 ms again. -/
theorem onopen_resets_witness :
    ((run quietEnv (fiveCloses ++ [Event.timer 4]) World.initial).getD
      World.initial).svc.reconnectAttempts = 5 ∧
    (onopen quietEnv ((run quietEnv (fiveCloses ++ [Event.timer 4]) World.initial).getD
      World.initial)).1.svc.reconnectAttempts = 0 ∧
    (onclose quietEnv (setReadyState
      (onopen quietEnv ((run quietEnv (fiveCloses ++ [Event.timer 4]) World.initial).getD
        World.initial)).1 5 ReadyState.CLOSED)).1.svc.reconnectAttempts = 1 :=
  ⟨by decide,
    (onopen_resets quietEnv ((run quietEnv (fiveCloses ++ [Event.timer 4]) World.initial).getD
      World.initial)).1,
    ((onopen_resets quietEnv ((run quietEnv (fiveCloses ++ [Event.timer 4]) World.initial).getD
      World.initial)).2.2 [] _ 5 _ (by decide) rfl (by decide) (by decide) (by decide)).1⟩

/-! ## Sending -/

/-- C10: `send(data)` hands the serialization of `data` to the transport of
the handle exactly when there is a handle and its transport is open: then that
transport receives this one frame and nothing else in the world changes;
otherwise the world is left exactly as it was (nothing is transmitted or kept
for later), and in both cases the call returns. -/
theorem send_iff_open (env : Env) (data : Val) (w : World) :
    (w.socketState = some ReadyState.OPEN →
      ∃ i t, w.svc.socket = some i ∧ w.transports.get? i = some t ∧
        t.readyState = ReadyState.OPEN ∧
        send env data w =
          { w with
            transports := w.transports.set i { t with sent := t.sent ++ [env.stringify data] } }) ∧
    (w.socketState ≠ some ReadyState.OPEN → send env data w = w) ∧
    (send env data w ≠ w ↔ w.socketState = some ReadyState.OPEN) := by
  have hopen : w.socketState = some ReadyState.OPEN →
      ∃ i t, w.svc.socket = some i ∧ w.transports.get? i = some t ∧
        t.readyState = ReadyState.OPEN ∧
        send env data w =
          { w with
            transports := w.transports.set i { t with sent := t.sent ++ [env.stringify data] } } := by
    intro h
    have hs := h
    unfold World.socketState at h
    split at h
    · next i hi =>
      cases ht : w.transports.get? i with
      | none => rw [ht] at h; cases h
      | some t =>
        rw [ht] at h
        refine ⟨i, t, hi, ht, Option.some.inj h, ?_⟩
        unfold send
        rw [if_pos hs, hi]
        simp only
        rw [List.modify_eq_set_get?, ht]
        rfl
    · cases h
  have hclosed : w.socketState ≠ some ReadyState.OPEN → send env data w = w := by
    intro h
    unfold send
    rw [if_neg h]
  refine ⟨hopen, hclosed, ?_, ?_⟩
  · intro hne
    by_contra h
    exact hne (hclosed h)
  · intro h hsame
    obtain ⟨i, t, _, ht, _, hs⟩ := hopen h
    rw [hs] at hsame
    have hlt : i < w.transports.length := by
      by_contra hge
      rw [List.get?_eq_none.mpr (Nat.not_lt.mp hge)] at ht
      cases ht
    have htr : w.transports.set i { t with sent := t.sent ++ [env.stringify data] } =
        w.transports := congrArg World.transports hsame
    have hget := congrArg (fun l : List Transport => l.get? i) htr
    simp only [List.get?_eq_getElem?, List.getElem?_set_self hlt] at hget
    rw [← List.get?_eq_getElem?, ht] at hget
    have hlen := congrArg (fun x : Transport => x.sent.length) (Option.some.inj hget)
    simp at hlen

/-- C10 at a service whose transport is open, and at a fresh service without
a handle. -/
theorem send_iff_open_witness :
    openWorld.socketState = some ReadyState.OPEN ∧
    send quietEnv Val.null openWorld ≠ openWorld ∧
    World.initial.socketState ≠ some ReadyState.OPEN ∧
    send quietEnv Val.null World.initial = World.initial :=
  ⟨by decide, (send_iff_open quietEnv Val.null openWorld).2.2.mpr (by decide), by decide,
    (send_iff_open quietEnv Val.null World.initial).2.1 (by decide)⟩

/-! ## Registration order and removal -/

theorem getCallbacks_setCallbacks_ne (m : List (Topic × List Callback)) (event t : Topic)
    (cbs : List Callback) (h : t ≠ event) :
    getCallbacks (setCallbacks m event cbs) t = getCallbacks m t := by
  induction m with
  | nil =>
    have hb : (t == event) = false := by simpa using h
    simp [setCallbacks, getCallbacks, List.lookup, hb]
  | cons p rest ih =>
    obtain ⟨k, old⟩ := p
    unfold setCallbacks
    by_cases he : event = k
    · subst he
      have hb : (t == event) = false := by simpa using h
      simp [getCallbacks, List.lookup, hb]
    · rw [if_neg he]
      unfold getCallbacks at ih ⊢
      simp only [List.lookup]
      rw [ih]

theorem on_same (s : WebSocketService) (event : Topic) (cb : Callback) :
    getCallbacks (s.on event cb).listeners event =
      some ((getCallbacks s.listeners event).getD [] ++ [cb]) := by
  unfold WebSocketService.on
  cases h : getCallbacks s.listeners event with
  | none =>
    simp only [Option.isSome_none, Bool.false_eq_true, if_false, getCallbacks_setCallbacks,
      Option.getD_none]
  | some L =>
    simp only [Option.isSome_some, if_true, h, getCallbacks_setCallbacks, Option.getD_some]

theorem on_other (s : WebSocketService) (event t : Topic) (cb : Callback) (h : t ≠ event) :
    getCallbacks (s.on event cb).listeners t = getCallbacks s.listeners t := by
  unfold WebSocketService.on
  cases hg : getCallbacks s.listeners event with
  | none =>
    simp only [Option.isSome_none, Bool.false_eq_true, if_false, getCallbacks_setCallbacks,
      getCallbacks_setCallbacks_ne _ _ _ _ h]
  | some L =>
    simp only [Option.isSome_some, if_true, hg, getCallbacks_setCallbacks_ne _ _ _ _ h]

theorem off_other (s : WebSocketService) (event t : Topic) (cb : Callback) (h : t ≠ event) :
    getCallbacks (s.off event cb).listeners t = getCallbacks s.listeners t := by
  unfold WebSocketService.off
  split
  · dsimp only
    split
    · exact getCallbacks_setCallbacks_ne _ _ _ _ h
    · rfl
  · rfl

theorem registerAll_get (regs : List (Topic × Callback)) (event : Topic) :
    ∀ s : WebSocketService,
      (getCallbacks (registerAll s regs).listeners event).getD [] =
        (getCallbacks s.listeners event).getD [] ++
          (regs.filter (fun p => decide (p.1 = event))).map Prod.snd := by
  induction regs with
  | nil => intro s; simp [registerAll]
  | cons p rest ih =>
    intro s
    have hstep : registerAll s (p :: rest) = registerAll (s.on p.1 p.2) rest := rfl
    rw [hstep, ih]
    by_cases hp : p.1 = event
    · rw [← hp, on_same]
      simp [List.filter_cons]
    · rw [on_other s p.1 event p.2 (fun h => hp h.symm)]
      simp [List.filter_cons, hp]

theorem runOp_leaves (env : Env) (event : Topic) (op : Op) (w : World)
    (h : op.leaves event = true) :
    getCallbacks (runOp env op w).svc.listeners event = getCallbacks w.svc.listeners event ∧
    (runOp env op w).invoked = w.invoked := by
  match op with
  | .on t cb =>
    have ht : t ≠ event := by simpa [Op.leaves] using h
    exact ⟨on_other w.svc t event cb (fun hh => ht hh.symm), rfl⟩
  | .off t cb =>
    have ht : t ≠ event := by simpa [Op.leaves] using h
    exact ⟨off_other w.svc t event cb (fun hh => ht hh.symm), rfl⟩
  | .connect =>
    simp only [runOp]
    unfold connect
    split
    · exact ⟨rfl, rfl⟩
    · split <;> exact ⟨rfl, rfl⟩
  | .disconnect =>
    simp only [runOp]
    unfold disconnect
    split <;> exact ⟨rfl, rfl⟩
  | .send data =>
    simp only [runOp]
    unfold send
    split
    · split <;> exact ⟨rfl, rfl⟩
    · exact ⟨rfl, rfl⟩
  | .throw => exact ⟨rfl, rfl⟩

theorem runBody_leaves (env : Env) (event : Topic) (ops : List Op) :
    ∀ w : World, (∀ op ∈ ops, op.leaves event = true) →
      (runBody env ops w).2 = Completion.normal ∧
      getCallbacks (runBody env ops w).1.svc.listeners event =
        getCallbacks w.svc.listeners event ∧
      (runBody env ops w).1.invoked = w.invoked := by
  induction ops with
  | nil => intro w _; exact ⟨rfl, rfl, rfl⟩
  | cons op rest ih =>
    intro w h
    have hop := h op (List.mem_cons_self _ _)
    have hrest : ∀ o ∈ rest, o.leaves event = true := fun o ho => h o (List.mem_cons_of_mem _ ho)
    have hstep : runBody env (op :: rest) w = runBody env rest (runOp env op w) := by
      cases op <;> first | rfl | cases hop
    obtain ⟨h1, h2⟩ := runOp_leaves env event op w hop
    obtain ⟨i1, i2, i3⟩ := ih (runOp env op w) hrest
    rw [hstep]
    exact ⟨i1, i2.trans h1, i3.trans h2⟩

/-- The dispatch loop over listeners that return and leave the array of the
topic as it is: every index is visited and its listener is called once. -/
theorem forEachLoop_leaves (env : Env) (event : Topic) (data : Val) (L : List Callback)
    (n : Nat) :
    ∀ (k : Nat) (w : World), getCallbacks w.svc.listeners event = some L →
      (∀ x ∈ (L.drop k).take n, ∀ op ∈ env.body x, op.leaves event = true) →
      (forEachLoop env event data n k w).2 = Completion.normal ∧
      getCallbacks (forEachLoop env event data n k w).1.svc.listeners event = some L ∧
      (forEachLoop env event data n k w).1.invoked =
        w.invoked ++ ((L.drop k).take n).map (fun x => (x, data)) := by
  induction n with
  | zero => intro k w hl _; simp [forEachLoop, hl]
  | succ n ih =>
    intro k w hl hq
    rw [forEachLoop_succ, hl]
    simp only [Option.getD_some]
    cases hk : L.get? k with
    | none =>
      have hlen : L.length ≤ k := List.get?_eq_none.mp hk
      have hd : L.drop k = [] := List.drop_eq_nil_of_le hlen
      have hd1 : L.drop (k + 1) = [] := List.drop_eq_nil_of_le (Nat.le_succ_of_le hlen)
      obtain ⟨i1, i2, i3⟩ := ih (k + 1) w hl (by simp [hd1])
      simp only
      rw [hd]
      rw [hd1] at i3
      exact ⟨i1, i2, by simpa using i3⟩
    | some cb =>
      have hlt : k < L.length := by
        by_contra hge
        rw [List.get?_eq_none.mpr (Nat.not_lt.mp hge)] at hk
        cases hk
      have hcb : L[k] = cb := by
        rw [List.get?_eq_getElem?, List.getElem?_eq_getElem hlt] at hk
        exact Option.some.inj hk
      have hd : L.drop k = cb :: L.drop (k + 1) := by
        rw [← hcb]; exact List.drop_eq_getElem_cons hlt
      rw [hd] at hq ⊢
      obtain ⟨b1, b2, b3⟩ := runBody_leaves env event (env.body cb)
        { w with invoked := w.invoked ++ [(cb, data)] } (hq cb (by simp))
      have hcall : callListener env cb data w =
          ((callListener env cb data w).1, Completion.normal) := by
        apply Prod.ext
        · rfl
        · exact b1
      simp only
      rw [hcall]
      simp only
      obtain ⟨i1, i2, i3⟩ := ih (k + 1) (callListener env cb data w).1 (b2.trans hl)
        (fun x hx => hq x (by simp [List.take_succ_cons, hx]))
      refine ⟨i1, i2, ?_⟩
      rw [i3]
      have hinv : (callListener env cb data w).1.invoked = w.invoked ++ [(cb, data)] := b3
      rw [hinv]
      simp [List.take_succ_cons]

/-- C11, refuted as stated: with the listeners 0, 1, 2 registered for
`message` in this order, listener 1 throwing, `emit` calls 0 and 1 and is left
by the exception: listener 2, registered after them, is never called. -/
theorem emit_registration_order_counterexample :
    getCallbacks messageListeners.svc.listeners "message" = some [0, 1, 2] ∧
    (emit throwingEnv "message" Val.null messageListeners).2 = Completion.thrown ∧
    (emit throwingEnv "message" Val.null messageListeners).1.invoked =
      [(0, Val.null), (1, Val.null)] ∧
    (2, Val.null) ∉ (emit throwingEnv "message" Val.null messageListeners).1.invoked := by
  decide

/-- C11, as amended: after any sequence of `on` calls, `emit(topic, d)` calls the
listeners of `topic` with `d` in the order in which they were registered, once per
registration (a listener registered k times is called k times), and calls no
other listener, provided the listeners of the topic return and do not
themselves change the registrations of that topic. -/
theorem emit_registration_order (env : Env) (w : World) (regs : List (Topic × Callback))
    (event : Topic) (data : Val)
    (hq : ∀ x ∈ (getCallbacks w.svc.listeners event).getD [] ++
        (regs.filter (fun p => decide (p.1 = event))).map Prod.snd,
      ∀ op ∈ env.body x, op.leaves event = true) :
    (emit env event data { w with svc := registerAll w.svc regs }).2 = Completion.normal ∧
    (emit env event data { w with svc := registerAll w.svc regs }).1.invoked =
      w.invoked ++ ((getCallbacks w.svc.listeners event).getD [] ++
        (regs.filter (fun p => decide (p.1 = event))).map Prod.snd).map (fun x => (x, data)) := by
  have hg := registerAll_get regs event w.svc
  unfold emit
  simp only
  cases hc : getCallbacks (registerAll w.svc regs).listeners event with
  | none =>
    rw [hc] at hg
    simp only [Option.getD_none] at hg
    rw [← hg]
    simp
  | some L =>
    rw [hc] at hg
    simp only [Option.getD_some] at hg
    rw [← hg] at hq ⊢
    simp only
    obtain ⟨i1, _, i3⟩ := forEachLoop_leaves env event data L L.length 0
      { w with
        svc := registerAll w.svc regs
        emitted := w.emitted ++ [(event, data)] } hc (by simpa using hq)
    refine ⟨i1, ?_⟩
    rw [i3]
    simp

/-- C11, as amended, on a fresh service: listener 7 registered twice and
listener 8 once for `event`, listener 9 for `message`. -/
theorem emit_registration_order_witness :
    (∀ x ∈ (getCallbacks World.initial.svc.listeners "event").getD [] ++
        (mixedRegistrations.filter (fun p => decide (p.1 = "event"))).map Prod.snd,
      ∀ op ∈ quietEnv.body x, op.leaves "event" = true) ∧
    (emit quietEnv "event" Val.null
      { World.initial with svc := registerAll World.initial.svc mixedRegistrations }).1.invoked =
      [(7, Val.null), (8, Val.null), (7, Val.null)] :=
  ⟨(fun _ _ _ h => nomatch h),
    (emit_registration_order quietEnv World.initial mixedRegistrations "event" Val.null
      (fun _ _ _ h => nomatch h)).2⟩

/-- C12: `off(topic, cb)` removes the earliest registration of `cb` from the
array of `topic` and keeps the others in their order; when `cb` is not in the
array, or when the topic has no array, the service is unchanged; the arrays of
the other topics and the other fields of the service are never changed. Being
a total function, `off` always returns. -/
theorem off_removes_earliest (s : WebSocketService) (event : Topic) (callback : Callback) :
    (∀ pre post, getCallbacks s.listeners event = some (pre ++ callback :: post) →
      callback ∉ pre →
      getCallbacks (s.off event callback).listeners event = some (pre ++ post)) ∧
    (∀ L, getCallbacks s.listeners event = some L → callback ∉ L →
      s.off event callback = s) ∧
    (getCallbacks s.listeners event = none → s.off event callback = s) ∧
    (∀ t, t ≠ event →
      getCallbacks (s.off event callback).listeners t = getCallbacks s.listeners t) ∧
    (s.off event callback).socket = s.socket ∧
    (s.off event callback).reconnectAttempts = s.reconnectAttempts ∧
    (s.off event callback).maxReconnectAttempts = s.maxReconnectAttempts ∧
    (s.off event callback).reconnectDelay = s.reconnectDelay := by
  refine ⟨?_, ?_, ?_, fun t ht => off_other s event t callback ht, ?_⟩
  · intro pre post hl hc
    rw [off_at s event callback pre post hl hc]
    exact getCallbacks_setCallbacks _ _ _
  · intro L hl hc
    unfold WebSocketService.off
    rw [hl]
    simp only
    rw [if_neg]
    rw [List.indexOf_eq_length.mpr hc]
    exact Nat.lt_irrefl _
  · intro hl
    unfold WebSocketService.off
    rw [hl]
  · unfold WebSocketService.off
    split
    · dsimp only
      split <;> exact ⟨rfl, rfl, rfl, rfl⟩
    · exact ⟨rfl, rfl, rfl, rfl⟩

/-- C12 at the registrations 7, 8, 7 for `event`: removing 7 leaves 8, 7, and
removing the unregistered 5 changes nothing. -/
theorem off_removes_earliest_witness :
    getCallbacks (registerAll World.initial.svc mixedRegistrations).listeners "event" =
      some ([] ++ 7 :: [8, 7]) ∧
    getCallbacks ((registerAll World.initial.svc mixedRegistrations).off "event" 7).listeners
      "event" = some ([] ++ [8, 7]) ∧
    (registerAll World.initial.svc mixedRegistrations).off "event" 5 =
      registerAll World.initial.svc mixedRegistrations :=
  ⟨by decide,
    (off_removes_earliest (registerAll World.initial.svc mixedRegistrations) "event" 7).1 []
      [8, 7] (by decide) (by decide),
    (off_removes_earliest (registerAll World.initial.svc mixedRegistrations) "event" 5).2.1
      [7, 8, 7] (by decide) (by decide)⟩

/-! ## The chat store -/

/-- C13: on a chat with no messages and no session id, a `sendUserMessage(t)`
whose backend call resolves with `r` ends with exactly two messages, the user
message with content `t` and the assistant message with content `r.response`
and metadata `{toolCalls: r.tool_calls, toolResults: r.tool_results}`; the
session id is `r.session_id` when that is truthy and stays `null` otherwise;
`isLoading` is false, `error` is null, and the action resolves with `r`. -/
theorem sendUserMessage_success (tickCall tickSettle : Tick) (text : String) (r : ChatResponse)
    (st : ChatState) (hm : st.messages = []) (hs : st.sessionId = Val.null) :
    (sendUserMessage tickCall tickSettle text (.resolved r) st).1.messages =
      [{ id := tickCall.now, role := "user", content := Val.str text, metadata := Val.null,
         timestamp := tickCall.iso },
       { id := tickSettle.now, role := "assistant", content := r.response,
         metadata := Val.obj (.cons "toolCalls" r.tool_calls
           (.cons "toolResults" r.tool_results .nil)),
         timestamp := tickSettle.iso }] ∧
    (sendUserMessage tickCall tickSettle text (.resolved r) st).1.sessionId =
      (if r.session_id.truthy then r.session_id else Val.null) ∧
    (sendUserMessage tickCall tickSettle text (.resolved r) st).1.isLoading = false ∧
    (sendUserMessage tickCall tickSettle text (.resolved r) st).1.error = none ∧
    (sendUserMessage tickCall tickSettle text (.resolved r) st).2 = .resolved r := by
  have hn : Val.null.truthy = false := rfl
  cases ht : r.session_id.truthy <;>
    simp [sendUserMessage, sendUserMessageBegin, sendUserMessageEnd, addMessage, hm, hs, hn, ht]

/-- C13 at the reply `{response: "hi", session_id: "s1", tool_calls: []}` to
`sendUserMessage("hello")` on a fresh chat. -/
theorem sendUserMessage_success_witness :
    ChatState.initial.messages = [] ∧ ChatState.initial.sessionId = Val.null ∧
    (sendUserMessage tickOne tickTwo "hello" (.resolved hiResponse) ChatState.initial).1.sessionId =
      (if hiResponse.session_id.truthy then hiResponse.session_id else Val.null) :=
  ⟨rfl, rfl,
    (sendUserMessage_success tickOne tickTwo "hello" hiResponse ChatState.initial rfl rfl).2.1⟩

/-- C14: a `sendUserMessage(t)` whose backend call rejects with `e` ends with
the prior messages followed by the user message with content `t` (it is not
taken back) and a system message with content `"Error: " ++ e.message`;
`isLoading` is false, `error` is `e.message`, the session id is unchanged, and
the action rejects with `e`. -/
theorem sendUserMessage_failure (tickCall tickSettle : Tick) (text : String) (e : ApiError)
    (st : ChatState) :
    (sendUserMessage tickCall tickSettle text (.rejected e) st).1.messages =
      st.messages ++
        [{ id := tickCall.now, role := "user", content := Val.str text, metadata := Val.null,
           timestamp := tickCall.iso },
         { id := tickSettle.now, role := "system",
           content := Val.str ("Error: " ++ e.message), metadata := Val.null,
           timestamp := tickSettle.iso }] ∧
    (sendUserMessage tickCall tickSettle text (.rejected e) st).1.isLoading = false ∧
    (sendUserMessage tickCall tickSettle text (.rejected e) st).1.error = some e.message ∧
    (sendUserMessage tickCall tickSettle text (.rejected e) st).1.sessionId = st.sessionId ∧
    (sendUserMessage tickCall tickSettle text (.rejected e) st).2 = .rejected e := by
  simp [sendUserMessage, sendUserMessageBegin, sendUserMessageEnd, addMessage]

theorem sendUserMessageEnd_sessionId (tick : Tick) (call : ChatCall)
    (backend : Settled ChatResponse) (st : ChatState) (h : call.sessionId.truthy = true) :
    (sendUserMessageEnd tick call backend st).1.sessionId = st.sessionId := by
  cases backend with
  | resolved r => simp [sendUserMessageEnd, addMessage, h]
  | rejected e => simp [sendUserMessageEnd, addMessage]

/-- C15, refuted as stated: in the chat whose session id is `"s1"`,
`setSessionId("s2")` replaces it by `"s2"`; and when two `sendUserMessage`
calls are both made before any reply, the first reply assigns `"s1"` and the
second reply replaces it by `"s2"`. -/
theorem sessionId_kept_counterexample :
    assignedChat.sessionId = Val.str "s1" ∧
    (setSessionId (Val.str "s2") assignedChat).sessionId = Val.str "s2" ∧
    overlapAfterFirst.sessionId = Val.str "s1" ∧
    overlapAfterSecond.sessionId = Val.str "s2" := by
  decide

/-- C15, as amended: in a chat state whose session id is truthy (assigned and
not the empty string), `addMessage` leaves the session id unchanged, and so
does a `sendUserMessage` that is called in that state, whether its backend
call resolves or rejects and whatever the store has become when it settles;
`setSessionId(id)` replaces the session id by `id`. -/
theorem sessionId_kept (st : ChatState) (hs : st.sessionId.truthy = true) :
    (∀ tick role content metadata,
      (addMessage tick role content metadata st).1.sessionId = st.sessionId) ∧
    (∀ tickCall tickSettle text backend,
      (sendUserMessage tickCall tickSettle text backend st).1.sessionId = st.sessionId) ∧
    (∀ tickCall text,
      (sendUserMessageBegin tickCall text st).1.sessionId = st.sessionId ∧
      ∀ tickSettle backend later,
        (sendUserMessageEnd tickSettle (sendUserMessageBegin tickCall text st).2 backend
          later).1.sessionId = later.sessionId) ∧
    (∀ id, (setSessionId id st).sessionId = id) := by
  refine ⟨fun _ _ _ _ => rfl, ?_, ?_, fun _ => rfl⟩
  · intro tickCall tickSettle text backend
    unfold sendUserMessage
    rw [sendUserMessageEnd_sessionId tickSettle _ backend _ hs]
    rfl
  · intro tickCall text
    exact ⟨rfl, fun tickSettle backend later =>
      sendUserMessageEnd_sessionId tickSettle _ backend later hs⟩

/-- C15, as amended, at the chat whose session id is `"s1"`: a further
successful `sendUserMessage` whose reply carries `"s2"` keeps `"s1"`. -/
theorem sessionId_kept_witness :
    assignedChat.sessionId.truthy = true ∧
    (sendUserMessage tickThree tickFour "again" (.resolved yoResponse) assignedChat).1.sessionId =
      assignedChat.sessionId :=
  ⟨by decide,
    (sessionId_kept assignedChat (by decide)).2.1 tickThree tickFour "again"
      (.resolved yoResponse)⟩

theorem chatOp_keeps_messages (op : ChatOp) (st : ChatState) (h : op ≠ ChatOp.clearMessages) :
    st.messages <+: (op.apply st).messages := by
  cases op with
  | addMessage tick role content metadata => exact List.prefix_append _ _
  | setSessionId id => exact List.prefix_refl _
  | sendBegin tick content => exact List.prefix_append _ _
  | sendEnd tick call backend =>
    cases backend with
    | resolved r =>
      simp only [ChatOp.apply, sendUserMessageEnd, addMessage]
      split <;> exact List.prefix_append _ _
    | rejected e => exact List.prefix_append _ _
  | clearMessages => exact absurd rfl h

/-- C16: every operation on the chat store other than `clearMessages`
(`addMessage`, `setSessionId`, the call of a `sendUserMessage` and its
completion, successful or not, for any running call) keeps the messages it
finds as a prefix of the messages it leaves, and so does every sequence of
such operations. -/
theorem chat_messages_kept (st : ChatState) :
    (∀ op : ChatOp, op ≠ ChatOp.clearMessages → st.messages <+: (op.apply st).messages) ∧
    (∀ ops : List ChatOp, ChatOp.clearMessages ∉ ops →
      st.messages <+: (ops.foldl (fun acc op => op.apply acc) st).messages) := by
  refine ⟨fun op h => chatOp_keeps_messages op st h, ?_⟩
  intro ops
  induction ops generalizing st with
  | nil => intro _; exact List.prefix_refl _
  | cons op rest ih =>
    intro h
    have hop : op ≠ ChatOp.clearMessages := fun he => h (he ▸ List.mem_cons_self _ _)
    have hrest : ChatOp.clearMessages ∉ rest := fun hm => h (List.mem_cons_of_mem _ hm)
    exact (chatOp_keeps_messages op st hop).trans (ih (op.apply st) hrest)

/-- C16 at the chat with two messages: they stay a prefix through the call of
a further `sendUserMessage` followed by `setSessionId(null)`. -/
theorem chat_messages_kept_witness :
    assignedChat.messages <+:
      ([ChatOp.sendBegin tickThree "again", ChatOp.setSessionId Val.null].foldl
        (fun acc op => op.apply acc) assignedChat).messages :=
  (chat_messages_kept assignedChat).2
    [ChatOp.sendBegin tickThree "again", ChatOp.setSessionId Val.null] (by decide)

/-- C17: `clearMessages()` leaves no message, a null session id and a null
error, whatever they were, leaves `isLoading` as it is, and doing it twice is
the same as doing it once. -/
theorem clearMessages_resets (st : ChatState) :
    (clearMessages st).messages = [] ∧
    (clearMessages st).sessionId = Val.null ∧
    (clearMessages st).error = none ∧
    (clearMessages st).isLoading = st.isLoading ∧
    clearMessages (clearMessages st) = clearMessages st :=
  ⟨rfl, rfl, rfl, rfl, rfl⟩

/-! ## The device store -/

theorem Fields.lookup_set : ∀ (fields : Fields) (key : String) (v : Val),
    (fields.set key v).lookup key = v
  | .nil, key, v => by simp [Fields.set, Fields.lookup]
  | .cons k old rest, key, v => by
    unfold Fields.set
    by_cases h : k = key
    · simp [h, Fields.lookup]
    · simp [h, Fields.lookup, Fields.lookup_set rest key v]

theorem Fields.lookup_set_ne : ∀ (fields : Fields) (key other : String) (v : Val),
    other ≠ key → (fields.set key v).lookup other = fields.lookup other
  | .nil, key, other, v, h => by
    have hk : ¬ key = other := fun hh => h hh.symm
    simp [Fields.set, Fields.lookup, hk]
  | .cons k old rest, key, other, v, h => by
    unfold Fields.set
    by_cases hk : k = key
    · have hko : ¬ k = other := fun hh => h (hh.symm.trans hk)
      rw [if_pos hk]
      simp [Fields.lookup, hko]
    · rw [if_neg hk]
      by_cases hko : k = other
      · simp [hko, Fields.lookup]
      · simp [hko, Fields.lookup, Fields.lookup_set_ne rest key other v h]

/-- C18: whatever the registry `D` is, a `fetchDevices()` whose backend call
resolves with `r` leaves the registry `r.devices` (the empty list when `r` has
no such field), `isLoading` false and `error` null, and resolves with `r`;
when the call rejects with `e`, the registry is still `D`, `error` is
`e.message`, `isLoading` is false, and the action rejects with `e`. -/
theorem fetchDevices_outcome (st : DeviceState) :
    (∀ r : DevicesResponse,
      fetchDevices (.resolved r) st =
        ({ devices := r.devices.getD [], isLoading := false, error := none }, .resolved r)) ∧
    (∀ e : ApiError,
      fetchDevices (.rejected e) st =
        ({ devices := st.devices, isLoading := false, error := some e.message },
          .rejected e)) :=
  ⟨fun _ => rfl, fun _ => rfl⟩

/-- C19: when the backend call of `controlDevice(id, action)` resolves with
`r`, the action resolves with `r`; if `r.status` is `"success"` or
`"simulated"`, every record whose `entity_id` is `id` gets the `state` `"on"`
when `action` is `"turn_on"` and `"off"` for every other action, the other
records being kept; for any other `r.status` the store is unchanged. -/
theorem controlDevice_status (entityId action : String) (r : ControlResponse)
    (st : DeviceState) :
    ((r.status = Val.str "success" ∨ r.status = Val.str "simulated") →
      controlDevice entityId action (.resolved r) st =
        ({ st with
            devices := st.devices.map (fun device =>
              if device.lookup "entity_id" = Val.str entityId then
                device.set "state" (Val.str (if action = "turn_on" then "on" else "off"))
              else device) },
          .resolved r)) ∧
    (¬ (r.status = Val.str "success" ∨ r.status = Val.str "simulated") →
      controlDevice entityId action (.resolved r) st = (st, .resolved r)) ∧
    (∀ device : Fields,
      (device.set "state" (Val.str (if action = "turn_on" then "on" else "off"))).lookup "state" =
        Val.str (if action = "turn_on" then "on" else "off")) := by
  refine ⟨fun h => ?_, fun h => ?_, fun device => Fields.lookup_set device "state" _⟩
  · unfold controlDevice
    simp only
    rw [if_pos h]
  · unfold controlDevice
    simp only
    rw [if_neg h]

/-- C19 at the registry with two lights: `turn_on` of `light.a` with the reply
`{status: "success"}` switches `light.a` on, with `{status: "pending"}` the
store is unchanged. -/
theorem controlDevice_status_witness :
    (controlDevice "light.a" "turn_on" (.resolved { status := Val.str "success" })
      twoLights).1.devices.map (fun d => d.lookup "state") = [Val.str "on", Val.str "off"] ∧
    controlDevice "light.a" "turn_on" (.resolved { status := Val.str "pending" }) twoLights =
      (twoLights, .resolved { status := Val.str "pending" }) :=
  ⟨(congrArg (fun p : DeviceState × Settled ControlResponse =>
      p.1.devices.map (fun d => d.lookup "state"))
      ((controlDevice_status "light.a" "turn_on" { status := Val.str "success" } twoLights).1
        (by decide))).trans (by decide),
    (controlDevice_status "light.a" "turn_on" { status := Val.str "pending" } twoLights).2.1
      (by decide)⟩

/-! ## Failures of backend calls -/

/-- C20, refuted as stated: on a fresh system store, a `fetchHealth()` whose
backend call rejects with the message `timeout` rejects with that error and
sets `isOnline` to false, but leaves `error` null. -/
theorem rest_failure_counterexample :
    (fetchHealth (.rejected { message := "timeout" }) SystemState.initial).2 =
      .rejected { message := "timeout" } ∧
    (fetchHealth (.rejected { message := "timeout" }) SystemState.initial).1.isOnline = false ∧
    (fetchHealth (.rejected { message := "timeout" }) SystemState.initial).1.error = none ∧
    (fetchHealth (.rejected { message := "timeout" }) SystemState.initial).1.error ≠
      some "timeout" := by
  decide

/-- C20, as amended: when the backend call rejects with `e`, each of
`sendUserMessage`, `fetchDevices`, `controlDevice` and `fetchStatus` rejects
with `e` and sets the `error` field of its store to `e.message`; `fetchHealth`
rejects with `e` too and sets `isOnline` to false, but leaves the `error`
field of the system store as it was. -/
theorem rest_failure_recorded (e : ApiError) :
    (∀ tickCall tickSettle text (st : ChatState),
      (sendUserMessage tickCall tickSettle text (.rejected e) st).2 = .rejected e ∧
      (sendUserMessage tickCall tickSettle text (.rejected e) st).1.error = some e.message) ∧
    (∀ st : DeviceState,
      (fetchDevices (.rejected e) st).2 = .rejected e ∧
      (fetchDevices (.rejected e) st).1.error = some e.message) ∧
    (∀ entityId action (st : DeviceState),
      (controlDevice entityId action (.rejected e) st).2 = .rejected e ∧
      (controlDevice entityId action (.rejected e) st).1.error = some e.message) ∧
    (∀ st : SystemState,
      (fetchStatus (.rejected e) st).2 = .rejected e ∧
      (fetchStatus (.rejected e) st).1.error = some e.message) ∧
    (∀ st : SystemState,
      (fetchHealth (.rejected e) st).2 = .rejected e ∧
      (fetchHealth (.rejected e) st).1.isOnline = false ∧
      (fetchHealth (.rejected e) st).1.error = st.error) :=
  ⟨fun _ _ _ _ => ⟨rfl, rfl⟩, fun _ => ⟨rfl, rfl⟩, fun _ _ _ => ⟨rfl, rfl⟩,
    fun _ => ⟨rfl, rfl⟩, fun _ => ⟨rfl, rfl, rfl⟩⟩

/-! ## The system store -/

/-- C21: whatever the system store holds, a `fetchStatus()` whose backend call
resolves with `s` leaves `status` equal to `s` (nothing of the previous
snapshot is kept), `isOnline` equal to whether `s.status` is `"online"`,
`isLoading` false and `error` null, and resolves with `s`; when the call
rejects with `e` it leaves `isOnline` false, `isLoading` false and `error`
equal to `e.message`, and rejects with `e`. In both cases `health` is kept. -/
theorem fetchStatus_outcome (st : SystemState) :
    (∀ s : Fields,
      fetchStatus (.resolved s) st =
        ({ status := some s, health := st.health,
           isOnline := decide (s.lookup "status" = Val.str "online"),
           isLoading := false, error := none },
          .resolved s)) ∧
    (∀ e : ApiError,
      fetchStatus (.rejected e) st =
        ({ status := st.status, health := st.health, isOnline := false, isLoading := false,
           error := some e.message },
          .rejected e)) :=
  ⟨fun _ => rfl, fun _ => rfl⟩

/-- C22: for all successful replies `s` and `h`, when `fetchStatus` completes
and then `fetchHealth` completes, `isOnline` is whether `h.status` is `"ok"`,
whatever `s` is; when `fetchHealth` completes and then `fetchStatus`
completes, `isOnline` is whether `s.status` is `"online"`, whatever `h` is.
This holds for the whole actions and for their completions alone. -/
theorem isOnline_last_wins (st : SystemState) (s h : Fields) :
    (fetchHealth (.resolved h) (fetchStatus (.resolved s) st).1).1.isOnline =
      decide (h.lookup "status" = Val.str "ok") ∧
    (fetchStatus (.resolved s) (fetchHealth (.resolved h) st).1).1.isOnline =
      decide (s.lookup "status" = Val.str "online") ∧
    (fetchHealth (.resolved h) (fetchStatusEnd (.resolved s) st).1).1.isOnline =
      decide (h.lookup "status" = Val.str "ok") ∧
    (fetchStatusEnd (.resolved s) (fetchHealth (.resolved h) st).1).1.isOnline =
      decide (s.lookup "status" = Val.str "online") :=
  ⟨rfl, rfl, rfl, rfl⟩

/-! ## The settings store -/

/-- C23: each setter of the settings store writes its own field and leaves
the other four as they are: `setTheme`, `setNotifications`, `setSoundEnabled`
and `setAutoScroll` store their argument, and `toggleSidebar` stores the
negation of the previous `sidebarCollapsed`. -/
theorem settings_setters (st : SettingsState) (v : Val) :
    setTheme v st = { st with theme := v } ∧
    (setTheme v st).theme = v ∧
    (setTheme v st).sidebarCollapsed = st.sidebarCollapsed ∧
    (setTheme v st).notifications = st.notifications ∧
    (setTheme v st).soundEnabled = st.soundEnabled ∧
    (setTheme v st).autoScroll = st.autoScroll ∧
    (setNotifications v st).notifications = v ∧
    (setNotifications v st).theme = st.theme ∧
    (setNotifications v st).sidebarCollapsed = st.sidebarCollapsed ∧
    (setNotifications v st).soundEnabled = st.soundEnabled ∧
    (setNotifications v st).autoScroll = st.autoScroll ∧
    (setSoundEnabled v st).soundEnabled = v ∧
    (setSoundEnabled v st).theme = st.theme ∧
    (setSoundEnabled v st).sidebarCollapsed = st.sidebarCollapsed ∧
    (setSoundEnabled v st).notifications = st.notifications ∧
    (setSoundEnabled v st).autoScroll = st.autoScroll ∧
    (setAutoScroll v st).autoScroll = v ∧
    (setAutoScroll v st).theme = st.theme ∧
    (setAutoScroll v st).sidebarCollapsed = st.sidebarCollapsed ∧
    (setAutoScroll v st).notifications = st.notifications ∧
    (setAutoScroll v st).soundEnabled = st.soundEnabled ∧
    (toggleSidebar st).sidebarCollapsed = (!st.sidebarCollapsed) ∧
    (toggleSidebar st).theme = st.theme ∧
    (toggleSidebar st).notifications = st.notifications ∧
    (toggleSidebar st).soundEnabled = st.soundEnabled ∧
    (toggleSidebar st).autoScroll = st.autoScroll :=
  ⟨rfl, rfl, rfl, rfl, rfl, rfl, rfl, rfl, rfl, rfl, rfl, rfl, rfl, rfl, rfl, rfl, rfl, rfl, rfl,
    rfl, rfl, rfl, rfl, rfl, rfl, rfl⟩

/-! ## Overlapping calls of `sendUserMessage` -/

/-- C24: when `sendUserMessage(a)` and then `sendUserMessage(b)` are called
before either backend call has settled, and both calls then resolve, the
messages are the prior ones followed by the user message of `a`, the user
message of `b`, and the two assistant messages in the order in which the
replies arrived: the reply to `a` first in the first statement, the reply to
`b` first in the second. No message is lost. -/
theorem overlapping_sends (st : ChatState) (tickA tickB tickFirst tickSecond : Tick)
    (a b : String) (rA rB : ChatResponse) :
    (sendUserMessageEnd tickSecond
      (sendUserMessageBegin tickB b (sendUserMessageBegin tickA a st).1).2 (.resolved rB)
      (sendUserMessageEnd tickFirst (sendUserMessageBegin tickA a st).2 (.resolved rA)
        (sendUserMessageBegin tickB b (sendUserMessageBegin tickA a st).1).1).1).1.messages =
      st.messages ++
        [messageAt tickA "user" (Val.str a) Val.null,
         messageAt tickB "user" (Val.str b) Val.null,
         messageAt tickFirst "assistant" rA.response (replyMetadata rA),
         messageAt tickSecond "assistant" rB.response (replyMetadata rB)] ∧
    (sendUserMessageEnd tickSecond (sendUserMessageBegin tickA a st).2 (.resolved rA)
      (sendUserMessageEnd tickFirst
        (sendUserMessageBegin tickB b (sendUserMessageBegin tickA a st).1).2 (.resolved rB)
        (sendUserMessageBegin tickB b (sendUserMessageBegin tickA a st).1).1).1).1.messages =
      st.messages ++
        [messageAt tickA "user" (Val.str a) Val.null,
         messageAt tickB "user" (Val.str b) Val.null,
         messageAt tickFirst "assistant" rB.response (replyMetadata rB),
         messageAt tickSecond "assistant" rA.response (replyMetadata rA)] := by
  constructor <;>
    simp only [sendUserMessageEnd, sendUserMessageBegin, addMessage, messageAt, replyMetadata] <;>
    split <;> split <;> simp

/-! ## The frame of `controlDevice` -/

theorem controlDevice_devices (entityId action : String) (backend : Settled ControlResponse)
    (st : DeviceState) :
    ∃ g : Fields → Fields,
      (controlDevice entityId action backend st).1.devices = st.devices.map g ∧
      ∀ d : Fields,
        (d.lookup "entity_id" ≠ Val.str entityId → g d = d) ∧
        (∀ key : String, key ≠ "state" → (g d).lookup key = d.lookup key) := by
  have hid : ∃ g : Fields → Fields, st.devices = st.devices.map g ∧
      ∀ d : Fields,
        (d.lookup "entity_id" ≠ Val.str entityId → g d = d) ∧
        (∀ key : String, key ≠ "state" → (g d).lookup key = d.lookup key) :=
    ⟨fun d => d, by simp, fun _ => ⟨fun _ => rfl, fun _ _ => rfl⟩⟩
  cases backend with
  | rejected e => exact hid
  | resolved r =>
    unfold controlDevice
    simp only
    split
    · refine ⟨_, rfl, fun d => ⟨fun hne => if_neg hne, fun key hkey => ?_⟩⟩
      split
      · exact Fields.lookup_set_ne d "state" key _ hkey
      · rfl
    · exact hid

/-- C25: whatever the registry, the arguments and the outcome of the backend
call, the registry after `controlDevice(id, action)` has the same length, the
record at every position is the record that was there with at most its
`state` changed (every other field reads the same), and a record whose
`entity_id` is not `id` is unchanged; when the backend call rejects with `e`
the registry is unchanged, `error` is `e.message`, and the action rejects with
`e`. -/
theorem controlDevice_frame (entityId action : String) (backend : Settled ControlResponse)
    (st : DeviceState) :
    (controlDevice entityId action backend st).1.devices.length = st.devices.length ∧
    (∀ (i : Nat) (d : Fields), st.devices.get? i = some d →
      ∃ d1, (controlDevice entityId action backend st).1.devices.get? i = some d1 ∧
        (d.lookup "entity_id" ≠ Val.str entityId → d1 = d) ∧
        (∀ key : String, key ≠ "state" → d1.lookup key = d.lookup key)) ∧
    (∀ e : ApiError, backend = .rejected e →
      controlDevice entityId action backend st =
        ({ devices := st.devices, isLoading := st.isLoading, error := some e.message },
          .rejected e)) := by
  obtain ⟨g, hg, hprop⟩ := controlDevice_devices entityId action backend st
  refine ⟨by rw [hg, List.length_map], ?_, ?_⟩
  · intro i d hd
    refine ⟨g d, ?_, (hprop d).1, (hprop d).2⟩
    rw [hg, List.get?_eq_getElem?, List.getElem?_map, ← List.get?_eq_getElem?, hd]
    rfl
  · intro e he
    subst he
    rfl

/-- C25 at the registry with two lights and a successful `turn_on` of
`light.a`: the second record is unchanged and the name of the first one too. -/
theorem controlDevice_frame_witness :
    twoLights.devices.get? 1 =
      some (.cons "entity_id" (.str "light.b") (.cons "name" (.str "Desk")
        (.cons "state" (.str "off") .nil))) ∧
    (controlDevice "light.a" "turn_on" (.resolved { status := Val.str "success" })
      twoLights).1.devices.length = twoLights.devices.length :=
  ⟨by decide,
    (controlDevice_frame "light.a" "turn_on" (.resolved { status := Val.str "success" })
      twoLights).1⟩

/-! ## The bound on the reconnect-attempt counter -/

theorem step_bound (env : Env) (e : Event) (w w1 : World) (h : step env e w = some w1)
    (hb : w.svc.reconnectAttempts ≤ w.svc.maxReconnectAttempts) :
    w1.svc.reconnectAttempts ≤ w1.svc.maxReconnectAttempts ∧
    w1.svc.maxReconnectAttempts = w.svc.maxReconnectAttempts := by
  by_cases ho : e.isOpened = true
  · obtain ⟨i, rfl⟩ : ∃ i, e = Event.opened i := by
      cases e <;> first | exact ⟨_, rfl⟩ | cases ho
    simp only [step, Option.map_eq_some'] at h
    obtain ⟨r, hr, rfl⟩ := h
    obtain ⟨h0, hm, _⟩ := openEvent_reset env i w r hr
    exact ⟨by rw [h0]; exact Nat.zero_le _, hm⟩
  · by_cases hc : e.isClosed = true
    · obtain ⟨i, rfl⟩ : ∃ i, e = Event.closed i := by
        cases e <;> first | exact ⟨_, rfl⟩ | cases hc
      simp only [step, Option.map_eq_some'] at h
      obtain ⟨r, hr, rfl⟩ := h
      have hreq := closeEvent_eq env i w r hr
      have hoc := onclose_effect env (setReadyState w i ReadyState.CLOSED)
      rw [← hreq] at hoc
      have ha : (setReadyState w i ReadyState.CLOSED).svc.reconnectAttempts =
          w.svc.reconnectAttempts := rfl
      have hm : (setReadyState w i ReadyState.CLOSED).svc.maxReconnectAttempts =
          w.svc.maxReconnectAttempts := rfl
      rw [ha, hm] at hoc
      refine ⟨?_, hoc.1⟩
      rw [hoc.1]
      by_cases hcase : r.2 = Completion.normal ∧
          w.svc.reconnectAttempts < w.svc.maxReconnectAttempts
      · rw [(hoc.2.2.2.1 hcase).1]
        exact hcase.2
      · rw [(hoc.2.2.2.2 hcase).1]
        exact hb
    · have hs := step_steady env e w w1 (by simpa using ho) (by simpa using hc) h
      exact ⟨by rw [hs.attempts, hs.maxAttempts]; exact hb, hs.maxAttempts⟩

theorem run_bound (env : Env) (es : List Event) :
    ∀ (w w1 : World), run env es w = some w1 →
      w.svc.reconnectAttempts ≤ w.svc.maxReconnectAttempts →
      w1.svc.reconnectAttempts ≤ w1.svc.maxReconnectAttempts ∧
      w1.svc.maxReconnectAttempts = w.svc.maxReconnectAttempts := by
  induction es with
  | nil =>
    intro w w1 hrun hb
    cases hrun
    exact ⟨hb, rfl⟩
  | cons e es ih =>
    intro w w1 hrun hb
    simp only [run, Option.bind_eq_some] at hrun
    obtain ⟨w2, hstep, hrest⟩ := hrun
    obtain ⟨h2, hm2⟩ := step_bound env e w w2 hstep hb
    obtain ⟨h1, hm1⟩ := ih w2 w1 hrest h2
    exact ⟨h1, hm1.trans hm2⟩

/-- C26: in every world that is reached from the fresh service by calls of
`connect`, `disconnect`, `send`, `on`, `off`, by open, message, close and
error events of its transports and by the firing of its timers, whatever the
listeners do, the reconnect-attempt counter is at most `maxReconnectAttempts`,
which is still 5 (and the counter, a natural number, is at least 0). -/
theorem reconnectAttempts_bounded (env : Env) (es : List Event) (w : World)
    (hrun : run env es World.initial = some w) :
    0 ≤ w.svc.reconnectAttempts ∧
    w.svc.reconnectAttempts ≤ w.svc.maxReconnectAttempts ∧
    w.svc.maxReconnectAttempts = 5 := by
  obtain ⟨h1, h2⟩ := run_bound env es World.initial w hrun (by decide)
  exact ⟨Nat.zero_le _, h1, h2⟩

/-- C26 at the fresh service whose transport closes five times and whose fifth
retry fires. -/
theorem reconnectAttempts_bounded_witness :
    run quietEnv (fiveCloses ++ [Event.timer 4]) World.initial =
      some ((run quietEnv (fiveCloses ++ [Event.timer 4]) World.initial).getD World.initial) ∧
    ((run quietEnv (fiveCloses ++ [Event.timer 4]) World.initial).getD
      World.initial).svc.reconnectAttempts ≤
    ((run quietEnv (fiveCloses ++ [Event.timer 4]) World.initial).getD
      World.initial).svc.maxReconnectAttempts :=
  ⟨by decide,
    (reconnectAttempts_bounded quietEnv (fiveCloses ++ [Event.timer 4])
      ((run quietEnv (fiveCloses ++ [Event.timer 4]) World.initial).getD World.initial)
      (by decide)).2.1⟩

/-! ## A listener that throws -/

theorem runBody_throws (env : Env) (event : Topic) (before after : List Op) :
    ∀ w : World, (∀ op ∈ before, op.leaves event = true) →
      (runBody env (before ++ Op.throw :: after) w).2 = Completion.thrown ∧
      (runBody env (before ++ Op.throw :: after) w).1.invoked = w.invoked := by
  induction before with
  | nil => intro w _; exact ⟨rfl, rfl⟩
  | cons op rest ih =>
    intro w h
    have hop := h op (List.mem_cons_self _ _)
    have hrest : ∀ o ∈ rest, o.leaves event = true := fun o ho => h o (List.mem_cons_of_mem _ ho)
    have hstep : runBody env ((op :: rest) ++ Op.throw :: after) w =
        runBody env (rest ++ Op.throw :: after) (runOp env op w) := by
      cases op <;> first | rfl | cases hop
    obtain ⟨i1, i2⟩ := ih (runOp env op w) hrest
    rw [hstep]
    exact ⟨i1, i2.trans (runOp_leaves env event op w hop).2⟩

/-- The dispatch loop when the listeners before `c` return and leave the
array alone and `c` throws: the loop stops at `c`. -/
theorem forEachLoop_throws (env : Env) (event : Topic) (data : Val) (w : World)
    (pre post : List Callback) (c : Callback) (before after : List Op)
    (hl : getCallbacks w.svc.listeners event = some (pre ++ c :: post))
    (hpre : ∀ x ∈ pre, ∀ op ∈ env.body x, op.leaves event = true)
    (hc : env.body c = before ++ Op.throw :: after)
    (hb : ∀ op ∈ before, op.leaves event = true) :
    (forEachLoop env event data (pre.length + (post.length + 1)) 0 w).2 = Completion.thrown ∧
    (forEachLoop env event data (pre.length + (post.length + 1)) 0 w).1.invoked =
      w.invoked ++ (pre ++ [c]).map (fun x => (x, data)) := by
  obtain ⟨p1, p2, p3⟩ := forEachLoop_leaves env event data (pre ++ c :: post) pre.length 0 w hl
    (fun x hx => hpre x (by simp at hx; exact hx))
  simp only [List.drop_zero, List.take_left'] at p3
  have hp : forEachLoop env event data pre.length 0 w =
      ((forEachLoop env event data pre.length 0 w).1, Completion.normal) := by
    apply Prod.ext
    · rfl
    · exact p1
  have hg : (pre ++ c :: post).get? pre.length = some c := by
    rw [List.get?_eq_getElem?, List.getElem?_append_right (Nat.le_refl _)]
    simp
  obtain ⟨b1, b2⟩ := runBody_throws env event before after
    { (forEachLoop env event data pre.length 0 w).1 with
      invoked := (forEachLoop env event data pre.length 0 w).1.invoked ++ [(c, data)] } hb
  have hcall : callListener env c data (forEachLoop env event data pre.length 0 w).1 =
      ((callListener env c data (forEachLoop env event data pre.length 0 w).1).1,
        Completion.thrown) := by
    apply Prod.ext
    · rfl
    · unfold callListener
      rw [hc]
      exact b1
  have hinv : (callListener env c data (forEachLoop env event data pre.length 0 w).1).1.invoked =
      (forEachLoop env event data pre.length 0 w).1.invoked ++ [(c, data)] := by
    unfold callListener
    rw [hc]
    exact b2
  rw [forEachLoop_add, hp]
  simp only [Nat.zero_add]
  rw [forEachLoop_succ, p2]
  simp only [Option.getD_some, hg]
  rw [hcall]
  simp only
  refine ⟨trivial, ?_⟩
  rw [hinv, p3]
  simp

/-- C27: when the text parses to an envelope (of type `event` or any other),
the listeners registered for `message` before `c` return, and `c` throws, the
message handler itself does not throw; the listeners registered for `message`
after `c` are not called; the only call of `emit` is the one for `message`, so
no `event` notification is emitted; and the handler leaves the world as the
interrupted dispatch left it, doing nothing more, as after a parse failure. -/
theorem onmessage_listener_throws (env : Env) (text : String) (w : World) (fields : Fields)
    (pre post : List Callback) (c : Callback) (before after : List Op)
    (hp : env.parse text = some (Val.obj fields))
    (hl : getCallbacks w.svc.listeners "message" = some (pre ++ c :: post))
    (hpre : ∀ x ∈ pre, ∀ op ∈ env.body x, op.leaves "message" = true)
    (hc : env.body c = before ++ Op.throw :: after)
    (hb : ∀ op ∈ before, op.leaves "message" = true) :
    (emit env "message" (Val.obj fields) w).2 = Completion.thrown ∧
    onmessage env text w = ((emit env "message" (Val.obj fields) w).1, Completion.normal) ∧
    (onmessage env text w).1.emitted = w.emitted ++ [("message", Val.obj fields)] ∧
    (onmessage env text w).1.invoked =
      w.invoked ++ (pre ++ [c]).map (fun x => (x, Val.obj fields)) := by
  obtain ⟨t1, t2⟩ := forEachLoop_throws env "message" (Val.obj fields)
    { w with emitted := w.emitted ++ [("message", Val.obj fields)] } pre post c before after
    hl hpre hc hb
  have hlen : (pre ++ c :: post).length = pre.length + (post.length + 1) := by simp
  have hemit : emit env "message" (Val.obj fields) w =
      forEachLoop env "message" (Val.obj fields) (pre.length + (post.length + 1)) 0
        { w with emitted := w.emitted ++ [("message", Val.obj fields)] } := by
    unfold emit
    simp only [hl, hlen]
  have hthrown : (emit env "message" (Val.obj fields) w).2 = Completion.thrown := by
    rw [hemit]; exact t1
  have hpair : emit env "message" (Val.obj fields) w =
      ((emit env "message" (Val.obj fields) w).1, Completion.thrown) := by
    apply Prod.ext
    · rfl
    · exact hthrown
  have hon : onmessage env text w =
      ((emit env "message" (Val.obj fields) w).1, Completion.normal) := by
    unfold onmessage
    rw [hp]
    simp only
    rw [hpair]
  refine ⟨hthrown, hon, ?_, ?_⟩
  · rw [hon]
    exact (emit_framed env "message" (Val.obj fields) w).emitted
  · rw [hon, hemit]
    exact t2

/-- C27 at an envelope of type `event` on the service with the listeners 0,
1, 2 for `message`, listener 1 throwing: listeners 0 and 1 are called,
listener 2 and the listener 3 of `event` are not. -/
theorem onmessage_listener_throws_witness :
    throwingEnv.parse "\x7b\"type\":\"event\",\"payload\":42\x7d" =
      some (Val.obj (.cons "type" (.str "event") (.cons "payload" (.num 42) .nil))) ∧
    getCallbacks messageListeners.svc.listeners "message" = some ([0] ++ 1 :: [2]) ∧
    (onmessage throwingEnv "\x7b\"type\":\"event\",\"payload\":42\x7d"
      messageListeners).1.invoked =
      messageListeners.invoked ++ ([0] ++ [1]).map (fun x =>
        (x, Val.obj (.cons "type" (.str "event") (.cons "payload" (.num 42) .nil)))) :=
  ⟨by decide, by decide,
    (onmessage_listener_throws throwingEnv "\x7b\"type\":\"event\",\"payload\":42\x7d"
      messageListeners (.cons "type" (.str "event") (.cons "payload" (.num 42) .nil))
      [0] [2] 1 [] [] (by decide) (by decide) (by decide) (by decide)
      (fun _ h => nomatch h)).2.2.2⟩

/-! ## The ids of chat messages -/

/-- C28, evaluated where it fails: two calls of `addMessage` that read the same
millisecond from the clock leave two messages with the same id in the chat, so
that the ids of the message sequence are not pairwise distinct. -/
theorem duplicate_message_ids :
    ((addMessage tickOne "system" (Val.str "b") Val.null
      (addMessage tickOne "user" (Val.str "a") Val.null ChatState.initial).1).1.messages.map
        Message.id) = [1700000000000, 1700000000000] ∧
    ¬ ((addMessage tickOne "system" (Val.str "b") Val.null
      (addMessage tickOne "user" (Val.str "a") Val.null ChatState.initial).1).1.messages.map
        Message.id).Nodup := by
  decide

end Aria
